import Mathlib

/-!
Verification of the tile-map coordinate / transformation engine and the
terraform engine of this OpenTTD branch, as a shallow embedding in Lean 4.

Source files embedded here: `src/direction_func.h`, `src/map_func.h`,
`src/tilearea_type.h`, `src/tilearea.cpp`, `src/terraform_cmd.cpp`.

Machine integers are modelled as `Nat`/`Int`; where the C code relies on
unsigned wraparound (`uint32` tile indices, `uint16` area extents) the
embedding applies an explicit `% 2^32` resp. `% 2^16`.
-/

set_option maxHeartbeats 1600000
set_option maxRecDepth 16000

namespace OpenTTD

/-- `2^32`, the modulus of `uint32` arithmetic (`TileIndex`, raw indices). -/
def U32 : Nat := 4294967296

/-- `2^16`, the modulus of `uint16` arithmetic (tile-area extents). -/
def U16 : Nat := 65536

/-- `INVALID_TILE_INDEX` / `INVALID_TILE`: `(uint32)-1`. -/
def INVALID_TILE_INDEX : Nat := U32 - 1

/-- Conversion of a C `int` value to `uint32` (two's complement wrap). -/
def wrap32 (x : Int) : Nat := (x % (U32 : Int)).toNat

/-- `GB(x, s, n)` from core/bitmath_func.hpp: extract `n` bits at offset `s`. -/
def GB (x s n : Nat) : Nat := (x >>> s) &&& ((1 <<< n) - 1)

/-- `Delta(a, b)` from core/math_func.hpp: absolute difference of two `uint`s. -/
def Delta (a b : Nat) : Nat := if a < b then b - a else a - b

/--
A tile map (`struct Map`): a rectangular grid of `size_x * size_y` tiles.
Only the dimensions are modelled; per-tile content lives in the contexts of
the individual embeddings below.
-/
structure MapT where
  size_x : Nat
  size_y : Nat
deriving DecidableEq, Repr

/-- `MapSize(map)`: total number of tiles. -/
def MapSize (m : MapT) : Nat := m.size_x * m.size_y

/-- `MapMaxX(map)`. -/
def MapMaxX (m : MapT) : Nat := m.size_x - 1

/-- `MapMaxY(map)`. -/
def MapMaxY (m : MapT) : Nat := m.size_y - 1

/-- `TileX(tile)`: x component of a raw tile index. -/
def TileX (m : MapT) (t : Nat) : Nat := t % m.size_x

/-- `TileY(tile)`: y component of a raw tile index. -/
def TileY (m : MapT) (t : Nat) : Nat := t / m.size_x

/-- `TileXY(x, y, map)`: `y * MapSizeX(map) + x` as a `uint32`. -/
def TileXY (m : MapT) (x y : Nat) : Nat := (y * m.size_x + x) % U32

/-- `IsValidTileIndex(tile)`: the index addresses an existing tile. -/
def IsValidTileIndex (m : MapT) (t : Nat) : Prop := t < MapSize m

instance (m : MapT) (t : Nat) : Decidable (IsValidTileIndex m t) :=
  inferInstanceAs (Decidable (t < MapSize m))

/-- Map-size sanity bundle used by the theorems: dimensions at least 3 and at
most `2^15` (the real game allocates power-of-two maps between 64 and 4096 a
side), so `uint32` index arithmetic never overflows and `uint16` extents never
truncate. -/
def MapOK (m : MapT) : Prop :=
  3 ≤ m.size_x ∧ 3 ≤ m.size_y ∧ m.size_x ≤ 32768 ∧ m.size_y ≤ 32768

/-! ## Direction and transformation algebra (`src/direction_func.h`)

`Direction` is the 8-way compass direction (`DIR_N = 0`, `DIR_NE = 1`, ...,
`DIR_NW = 7`).  `DirTransformation` is the 8-element dihedral group encoded
as `00000irr`: bit 2 (`DTR_REFLECTION_BIT`) reflects against the X axis
before rotating, bits 0-1 (`DTR_ROTATION_MASK`) count 90-degree clockwise
rotations.  The enumerator values (from direction_type.h, documented in the
`CombineDirTransform` comment block) are `DTR_IDENTITY = 0`,
`DTR_ROTATE_90_R = 1`, `DTR_ROTATE_180 = 2`, `DTR_ROTATE_90_L = 3`,
`DTR_REFLECT_NE_SW = 4`, `DTR_REFLECT_W_E = 5`, `DTR_REFLECT_NW_SE = 6`,
`DTR_REFLECT_N_S = 7`. -/

def DTR_REFLECTION_BIT : Nat := 4
def DTR_ROTATION_MASK : Nat := 3
def DTR_IDENTITY : Nat := 0
def DTR_ROTATE_90_R : Nat := 1
def DTR_ROTATE_180 : Nat := 2
def DTR_ROTATE_90_L : Nat := 3
def DTR_REFLECT_NE_SW : Nat := 4
def DTR_REFLECT_W_E : Nat := 5
def DTR_REFLECT_NW_SE : Nat := 6
def DTR_REFLECT_N_S : Nat := 7

/-- `IsValidDirTransform(t)`: `IsInsideMM(t, DTR_BEGIN, DTR_END)` with
`DTR_BEGIN = 0`, `DTR_END = 8`. -/
def IsValidDirTransform (t : Nat) : Prop := t < 8

instance (t : Nat) : Decidable (IsValidDirTransform t) :=
  inferInstanceAs (Decidable (t < 8))

/-- `CombineDirTransform(a, b)`: the transformation acting like `a` followed
by `b`.  The C expression `(b - a) & DTR_ROTATION_MASK` masks a (possibly
negative) `int` in two's complement, which is `(b - a) mod 4`. -/
def CombineDirTransform (a b : Nat) : Nat :=
  ((a ^^^ b) &&& DTR_REFLECTION_BIT) |||
    (if b &&& DTR_REFLECTION_BIT ≠ 0 then
      (((b : Int) - (a : Int)) % 4).toNat
    else
      (b + a) % 4)

/-- `InvertDirTransform(t)`: reflections are involutions; rotations invert by
negation modulo 4 (`(-t) & DTR_ROTATION_MASK` in two's complement). -/
def InvertDirTransform (t : Nat) : Nat :=
  if t &&& DTR_REFLECTION_BIT ≠ 0 then t
  else ((-(t : Int)) % 4).toNat

/-- `ChangeDir(d, delta)`: rotate a direction; `(uint)(d + delta) % 8`. -/
def ChangeDir (d delta : Nat) : Nat := (d + delta) % 8

/-- `TransformAxis(axis, t)`: `axis ^ (t & 1)`. -/
def TransformAxis (axis t : Nat) : Nat := axis ^^^ (t &&& 1)

/-- `TransformDir(direction, transformation)`: reflect against the X axis
(`2 * DIR_NE - direction`, with `DIR_NE = 1`) when the reflection bit is set,
then `ChangeDir` by `2 * transformation`; the intermediate value may be a
negative `int`, and `ChangeDir`'s `(uint)(...) % 8` is `emod 8`. -/
def TransformDir (direction transformation : Nat) : Nat :=
  let d : Int :=
    if transformation &&& DTR_REFLECTION_BIT ≠ 0 then 2 * 1 - (direction : Int)
    else (direction : Int)
  ((d + 2 * (transformation : Int)) % 8).toNat

/-! ## Region transformations (`src/map_func.h`, `src/tilearea.cpp`) -/

/-- `TileIndexDiffC`: an (x, y) offset between two tiles (`int16` fields). -/
structure TileIndexDiffC where
  x : Int
  y : Int
deriving DecidableEq, Repr

/-- The `DIFF_X` lookup bit array of `TransformedNorthCornerDiffC`. -/
def DIFF_X : Nat :=
  0 <<< DTR_IDENTITY ||| 0 <<< DTR_ROTATE_90_R ||| 1 <<< DTR_ROTATE_180 |||
    1 <<< DTR_ROTATE_90_L ||| 0 <<< DTR_REFLECT_NE_SW ||| 1 <<< DTR_REFLECT_W_E |||
    1 <<< DTR_REFLECT_NW_SE ||| 0 <<< DTR_REFLECT_N_S

/-- The `DIFF_Y` lookup bit array of `TransformedNorthCornerDiffC`. -/
def DIFF_Y : Nat :=
  0 <<< DTR_IDENTITY ||| 1 <<< DTR_ROTATE_90_R ||| 1 <<< DTR_ROTATE_180 |||
    0 <<< DTR_ROTATE_90_L ||| 1 <<< DTR_REFLECT_NE_SW ||| 1 <<< DTR_REFLECT_W_E |||
    0 <<< DTR_REFLECT_NW_SE ||| 0 <<< DTR_REFLECT_N_S

/-- `TransformedNorthCornerDiffC(transformation)`: offset to the new location
of a tile's northern corner under the transformation. -/
def TransformedNorthCornerDiffC (transformation : Nat) : TileIndexDiffC :=
  { x := (GB DIFF_X transformation 1 : Int), y := (GB DIFF_Y transformation 1 : Int) }

/-- `TileTransformation`: a direction transformation plus a translation. -/
structure TileTransformation where
  dtr : Nat
  offset : TileIndexDiffC
deriving DecidableEq, Repr

/-- Reflection of a coordinate pair against the X (NE-SW) axis, consistent
with `TransformDir`'s action on the `_tileoffs_by_dir` offsets. -/
def reflectXPoint (p : Int × Int) : Int × Int := (p.1, -p.2)

/-- One clockwise 90-degree rotation of a coordinate pair, consistent with
`TransformDir`'s action on the `_tileoffs_by_dir` offsets. -/
def rotate90RPoint (p : Int × Int) : Int × Int := (p.2, -p.1)

/-- The linear action of a `DirTransformation` on a coordinate pair:
reflect first when the reflection bit is set, then rotate. -/
def applyDtrToPoint (dtr : Nat) (p : Int × Int) : Int × Int :=
  rotate90RPoint^[dtr &&& DTR_ROTATION_MASK]
    (if dtr &&& DTR_REFLECTION_BIT ≠ 0 then reflectXPoint p else p)

/-- Modelled from the spec: the body of `TransformationBetweenTiles` lives in
map.cpp, which is not among the sources (only its declaration in
`src/map_func.h` is).  Per the spec's region-transformation contract, the
returned `TileTransformation` carries the direction transformation `dtr`
unchanged together with the translation offset solving
`dtr(from) + offset = to` in exact integer arithmetic. -/
def TransformationBetweenTiles (from_x from_y to_x to_y : Int) (dtr : Nat) :
    TileTransformation :=
  let q := applyDtrToPoint dtr (from_x, from_y)
  { dtr := dtr, offset := { x := to_x - q.1, y := to_y - q.2 } }

/-- `GenericTileArea` (`OrthogonalTileAreaT<true>`): a base tile on an
explicit map plus a width and height (`uint16` in the source). -/
structure GenericTileArea where
  map : MapT
  tile : Nat
  w : Nat
  h : Nat
deriving DecidableEq, Repr

/-- The asserted precondition of `TransformationBetweenTileAreas`: the
destination extents are the transformed source extents. -/
def AreaExtentsMatch (f t : GenericTileArea) (dtr : Nat) : Prop :=
  if TransformAxis 0 dtr = 0 then f.w = t.w ∧ f.h = t.h else f.w = t.h ∧ f.h = t.w

instance (f t : GenericTileArea) (dtr : Nat) : Decidable (AreaExtentsMatch f t dtr) := by
  unfold AreaExtentsMatch
  infer_instance

/-- `TransformationBetweenTileAreas(from, to, dtr)` from `src/tilearea.cpp`. -/
def TransformationBetweenTileAreas (f t : GenericTileArea) (dtr : Nat) :
    TileTransformation :=
  let dir := TransformedNorthCornerDiffC dtr
  TransformationBetweenTiles
    (TileX f.map f.tile) (TileY f.map f.tile)
    ((TileX t.map t.tile : Int) + ((t.w : Int) - 1) * dir.x)
    ((TileY t.map t.tile : Int) + ((t.h : Int) - 1) * dir.y)
    dtr

/-- `TransformationBetweenTileAreaCorners(from, to, dtr)` from
`src/tilearea.cpp`: the tile-area transformation with the extra one-corner
offset added to both offset components. -/
def TransformationBetweenTileAreaCorners (f t : GenericTileArea) (dtr : Nat) :
    TileTransformation :=
  let ret := TransformationBetweenTileAreas f t dtr
  let extra := TransformedNorthCornerDiffC dtr
  { dtr := ret.dtr,
    offset := { x := ret.offset.x + extra.x, y := ret.offset.y + extra.y } }

/-! ## Orthogonal tile areas (`src/tilearea.cpp`)

`OrthogonalTileAreaT` is modelled by `GenericTileArea` above.  `uint` area
arithmetic is carried out modulo `2^32` and the `uint16` extents modulo
`2^16`, exactly where the C code can wrap. -/

/-- `wrap16`: conversion of a C `int` to `uint16`. -/
def wrap16 (x : Int) : Nat := (x % (U16 : Int)).toNat

/-- `IsInsideBS(x, base, size)` from core/math_func.hpp:
`(x - base) < size` in `uint` arithmetic. -/
def IsInsideBS (x base size : Nat) : Prop := (x + U32 - base) % U32 < size

instance (x base size : Nat) : Decidable (IsInsideBS x base size) :=
  inferInstanceAs (Decidable (_ < _))

/-- `OrthogonalTileAreaT::Contains(tile)`. -/
def AreaContains (ta : GenericTileArea) (t : Nat) : Prop :=
  ta.w ≠ 0 ∧
    IsInsideBS (TileX ta.map t) (TileX ta.map ta.tile) ta.w ∧
    IsInsideBS (TileY ta.map t) (TileY ta.map ta.tile) ta.h

instance (ta : GenericTileArea) (t : Nat) : Decidable (AreaContains ta t) := by
  unfold AreaContains
  infer_instance

/-- `OrthogonalTileAreaT::Add(to_add)`: enlarge the area to cover another
tile; an invalid-base (empty) area becomes the 1x1 area at that tile. -/
def AreaAdd (ta : GenericTileArea) (to_add : Nat) : GenericTileArea :=
  if ¬ IsValidTileIndex ta.map ta.tile then
    { map := ta.map, tile := to_add, w := 1, h := 1 }
  else
    let sx := TileX ta.map ta.tile
    let sy := TileY ta.map ta.tile
    let ex := (sx + ta.w + U32 - 1) % U32
    let ey := (sy + ta.h + U32 - 1) % U32
    let ax := TileX ta.map to_add
    let ay := TileY ta.map to_add
    let sx2 := min ax sx
    let sy2 := min ay sy
    let ex2 := max ax ex
    let ey2 := max ay ey
    { map := ta.map, tile := TileXY ta.map sx2 sy2,
      w := (ex2 - sx2 + 1) % U16, h := (ey2 - sy2 + 1) % U16 }

/-- `OrthogonalTileAreaT::Clear()`: reset to the empty sentinel. -/
def AreaClear (ta : GenericTileArea) : GenericTileArea :=
  { map := ta.map, tile := INVALID_TILE_INDEX, w := 0, h := 0 }

/-- `OrthogonalTileAreaT::Expand(rad)`: grow by `rad` in all four directions.
Note that the far bounds are clamped with `MapSizeX()` / `MapSizeY()`, whose
defaulted argument is the *main* map `_main_map`, not `MapOf(this->tile)`;
the `main` parameter models `_main_map`.  The `int` results are stored back
into a `uint32` index and `uint16` extents. -/
def AreaExpand (main : MapT) (ta : GenericTileArea) (rad : Int) : GenericTileArea :=
  let x : Int := TileX ta.map ta.tile
  let y : Int := TileY ta.map ta.tile
  let sx := max (x - rad) 0
  let sy := max (y - rad) 0
  let ex := min (x + ta.w + rad) (main.size_x : Int)
  let ey := min (y + ta.h + rad) (main.size_y : Int)
  { map := ta.map, tile := TileXY ta.map sx.toNat sy.toNat,
    w := wrap16 (ex - sx), h := wrap16 (ey - sy) }

/-! ## Diagonal tile areas and their iterator (`src/tilearea.cpp`)

`DiagonalTileAreaT` stores the base tile and signed extents `a`, `b` along the
rotated (diagonal) axes `a = y + x`, `b = y - x`, with one-past-end
semantics.  `DiagonalTileIteratorT::operator++` advances the rotated
coordinates and clips at the map borders.  The do-while loop of `operator++`
is modelled with fuel (`diagNext`); running out of fuel bails out to the
invalid sentinel, so no tile is ever yielded that the source would not yield.
-/

/-- `DiagonalTileAreaT`: base tile plus signed diagonal extents. -/
structure DiagonalTileAreaM where
  map : MapT
  tile : Nat
  a : Int
  b : Int
deriving DecidableEq, Repr

/-- `DiagonalTileAreaT(start, end)`: build a diagonal area from two corners;
the extents get a unit step away from zero for one-past-end semantics. -/
def DiagonalTileAreaFromCorners (m : MapT) (start fin : Nat) : DiagonalTileAreaM :=
  let a0 : Int := (TileY m fin : Int) + TileX m fin - TileY m start - TileX m start
  let b0 : Int := (TileY m fin : Int) - TileX m fin - TileY m start + TileX m start
  { map := m, tile := start,
    a := if a0 > 0 then a0 + 1 else a0 - 1,
    b := if b0 > 0 then b0 + 1 else b0 - 1 }

/-- `DiagonalTileAreaT::Contains(tile)`: transform into (a, b) space,
normalize each (start, end) pair preserving one-past-end semantics, test
half-open containment on both axes. -/
def DiagContains (ta : DiagonalTileAreaM) (t : Nat) : Prop :=
  let a : Int := (TileY ta.map t : Int) + TileX ta.map t
  let b : Int := (TileY ta.map t : Int) - TileX ta.map t
  let start_a : Int := (TileY ta.map ta.tile : Int) + TileX ta.map ta.tile
  let start_b : Int := (TileY ta.map ta.tile : Int) - TileX ta.map ta.tile
  let end_a : Int := start_a + ta.a
  let end_b : Int := start_b + ta.b
  let sa := if start_a > end_a then end_a + 1 else start_a
  let ea := if start_a > end_a then start_a + 1 else end_a
  let sb := if start_b > end_b then end_b + 1 else start_b
  let eb := if start_b > end_b then start_b + 1 else end_b
  a ≥ sa ∧ a < ea ∧ b ≥ sb ∧ b < eb

instance (ta : DiagonalTileAreaM) (t : Nat) : Decidable (DiagContains ta t) := by
  unfold DiagContains
  infer_instance

/-- The state of a `DiagonalTileIteratorT`. -/
structure DiagIterState where
  map : MapT
  tile : Nat
  base_x : Nat
  base_y : Nat
  a_cur : Int
  b_cur : Int
  a_max : Int
  b_max : Int
deriving DecidableEq, Repr

/-- `DiagonalTileIteratorT(ta)`: start the iteration at the base tile. -/
def DiagIterInit (ta : DiagonalTileAreaM) : DiagIterState :=
  { map := ta.map, tile := ta.tile,
    base_x := TileX ta.map ta.tile, base_y := TileY ta.map ta.tile,
    a_cur := 0, b_cur := 0, a_max := ta.a, b_max := ta.b }

/-- The first half of the do-while body of
`DiagonalTileIteratorT::operator++`: advance the rotated coordinates
(special-casing the 1-wide rhombus, where every second column is empty). -/
def diagAdvance (s : DiagIterState) : DiagIterState :=
  if s.a_max = 1 ∨ s.a_max = -1 then
    { s with
      a_cur := (0 : Int),
      b_cur := (if s.b_max > 0 then min (s.b_cur + 2) s.b_max
        else max (s.b_cur - 2) s.b_max) }
  else
    let a2 := if s.a_max > 0 then s.a_cur + 2 else s.a_cur - 2
    if (if s.a_max > 0 then a2 ≥ s.a_max else a2 ≤ s.a_max) then
      { s with
        a_cur := (if a2.natAbs % 2 = 1 then 0 else if s.a_max > 0 then 1 else -1 : Int),
        b_cur := (if s.b_max > 0 then s.b_cur + 1 else s.b_cur - 1) }
    else
      { s with a_cur := a2 }

/-- One iteration of the do-while body of
`DiagonalTileIteratorT::operator++`: advance the rotated coordinates, convert
back to map coordinates (`uint` wrap on the additions, C `int` division
truncating toward zero) and clip at the map borders. -/
def diagStep (s : DiagIterState) : DiagIterState :=
  let s1 := diagAdvance s
  let x : Nat := wrap32 ((s1.base_x : Int) + (s1.a_cur - s1.b_cur).tdiv 2)
  let y : Nat := wrap32 ((s1.base_y : Int) + (s1.b_cur + s1.a_cur).tdiv 2)
  if x ≥ s1.map.size_x ∨ y ≥ s1.map.size_y then
    { s1 with tile := INVALID_TILE_INDEX }
  else
    { s1 with tile := TileXY s1.map x y }

/-- The full `operator++`: repeat `diagStep` while the current tile is
invalid and the terminating line is not reached, then discard the tile on the
terminating line.  Fuel exhaustion bails out to the invalid sentinel. -/
def diagNext (fuel : Nat) (s : DiagIterState) : DiagIterState :=
  match fuel with
  | 0 => { s with tile := INVALID_TILE_INDEX }
  | fuel + 1 =>
    let s1 := diagStep s
    if ¬ s1.tile < MapSize s1.map ∧ s1.b_max ≠ s1.b_cur then
      diagNext fuel s1
    else if s1.b_max = s1.b_cur then { s1 with tile := INVALID_TILE_INDEX }
    else s1

/-- The states visited by a `TILE_AREA_LOOP`-style iteration: the current
state, then — while the current tile is valid — the states after each
`operator++`.  One fuel entry feeds each `operator++`. -/
def diagTraj (fuels : List Nat) (s : DiagIterState) : List DiagIterState :=
  match fuels with
  | [] => [s]
  | f :: fs =>
    if s.tile < MapSize s.map then s :: diagTraj fs (diagNext f s) else [s]

/-- A well-formed nonempty area on map `m`: valid base, positive extents,
bounding box inside the map. -/
def AreaWF (m : MapT) (ta : GenericTileArea) : Prop :=
  ta.map = m ∧ IsValidTileIndex m ta.tile ∧ 1 ≤ ta.w ∧ 1 ≤ ta.h ∧
    TileX m ta.tile + ta.w ≤ m.size_x ∧ TileY m ta.tile + ta.h ≤ m.size_y

instance (m : MapT) (ta : GenericTileArea) : Decidable (AreaWF m ta) := by
  unfold AreaWF
  infer_instance

instance (m : MapT) : Decidable (MapOK m) := by
  unfold MapOK
  infer_instance

/-- An axis-aligned rectangle of tile coordinates, used to state minimality
of the bounding box computed by `AreaAdd`. -/
structure Box where
  x : Nat
  y : Nat
  w : Nat
  h : Nat

/-- Membership of a coordinate pair in a `Box`. -/
def Box.containsPt (B : Box) (px py : Nat) : Prop :=
  B.x ≤ px ∧ px < B.x + B.w ∧ B.y ≤ py ∧ py < B.y + B.h

end OpenTTD

namespace OpenTTD

section AreaLemmas

variable {m : MapT}

theorem mapOK_size_lt (hm : MapOK m) : MapSize m < U32 := by
  obtain ⟨-, -, h1, h2⟩ := hm
  have : MapSize m ≤ 32768 * 32768 := Nat.mul_le_mul h1 h2
  unfold U32
  omega

theorem tileXY_lt_u32 (hm : MapOK m) {x y : Nat} (hx : x < m.size_x)
    (hy : y < m.size_y) : y * m.size_x + x < U32 := by
  have h1 : y * m.size_x + x < MapSize m := by
    unfold MapSize
    have hy1 : y + 1 ≤ m.size_y := hy
    calc y * m.size_x + x < y * m.size_x + m.size_x := by omega
    _ = (y + 1) * m.size_x := by ring
    _ ≤ m.size_y * m.size_x := Nat.mul_le_mul_right _ hy1
    _ = m.size_x * m.size_y := Nat.mul_comm _ _
  exact lt_trans h1 (mapOK_size_lt hm)

theorem tileXY_x (hm : MapOK m) {x y : Nat} (hx : x < m.size_x) (hy : y < m.size_y) :
    TileX m (TileXY m x y) = x := by
  unfold TileX TileXY
  rw [Nat.mod_eq_of_lt (tileXY_lt_u32 hm hx hy), Nat.mul_comm y m.size_x,
    Nat.mul_add_mod, Nat.mod_eq_of_lt hx]

theorem tileXY_y (hm : MapOK m) {x y : Nat} (hx : x < m.size_x) (hy : y < m.size_y) :
    TileY m (TileXY m x y) = y := by
  unfold TileY TileXY
  have hw : 0 < m.size_x := by have := hm.1; omega
  rw [Nat.mod_eq_of_lt (tileXY_lt_u32 hm hx hy), Nat.mul_comm y m.size_x,
    Nat.mul_add_div hw, Nat.div_eq_of_lt hx, Nat.add_zero]

theorem tile_coords_lt (hm : MapOK m) {t : Nat} (ht : t < MapSize m) :
    TileX m t < m.size_x ∧ TileY m t < m.size_y := by
  have hw : 0 < m.size_x := by have := hm.1; omega
  constructor
  · exact Nat.mod_lt _ hw
  · unfold TileY
    rw [Nat.div_lt_iff_lt_mul hw, Nat.mul_comm m.size_y m.size_x]
    exact ht

theorem tileXY_coords (hm : MapOK m) {t : Nat} (ht : t < MapSize m) :
    TileXY m (TileX m t) (TileY m t) = t := by
  unfold TileXY TileX TileY
  have hw : 0 < m.size_x := by have := hm.1; omega
  rw [Nat.mul_comm, Nat.div_add_mod]
  exact Nat.mod_eq_of_lt (lt_trans ht (mapOK_size_lt hm))

theorem tileXY_valid (hm : MapOK m) {x y : Nat} (hx : x < m.size_x)
    (hy : y < m.size_y) : IsValidTileIndex m (TileXY m x y) := by
  unfold IsValidTileIndex TileXY MapSize
  rw [Nat.mod_eq_of_lt (tileXY_lt_u32 hm hx hy)]
  calc y * m.size_x + x < (y + 1) * m.size_x := by nlinarith
  _ ≤ m.size_y * m.size_x := Nat.mul_le_mul_right _ hy
  _ = m.size_x * m.size_y := Nat.mul_comm _ _

/-- `IsInsideBS` coincides with the interval test while the wrap cannot
trigger. -/
theorem isInsideBS_iff {x base size : Nat} (hx : x < U32) (hbase : base < U32)
    (hsize : base + size ≤ U32) :
    IsInsideBS x base size ↔ base ≤ x ∧ x < base + size := by
  unfold IsInsideBS U32 at *
  omega

theorem tileX_lt (hm : MapOK m) (u : Nat) : TileX m u < m.size_x :=
  Nat.mod_lt _ (by have := hm.1; omega)

/-- `AreaContains` on a well-formed area is the plain coordinate box test
for a tile of the same map. -/
theorem areaContains_iff (hm : MapOK m) {ta : GenericTileArea}
    (hwf : AreaWF m ta) {u : Nat} (hu : u < MapSize m) :
    AreaContains ta u ↔
      (TileX m ta.tile ≤ TileX m u ∧ TileX m u < TileX m ta.tile + ta.w ∧
        TileY m ta.tile ≤ TileY m u ∧ TileY m u < TileY m ta.tile + ta.h) := by
  obtain ⟨hmap, hvalid, hw1, hh1, hxb, hyb⟩ := hwf
  obtain ⟨hsx, hsy⟩ := tile_coords_lt hm hvalid
  obtain ⟨hux, huy⟩ := tile_coords_lt hm hu
  have hW : m.size_x ≤ 32768 := hm.2.2.1
  have hH : m.size_y ≤ 32768 := hm.2.2.2
  unfold AreaContains
  rw [hmap]
  rw [isInsideBS_iff (by unfold U32 at *; omega) (by unfold U32 at *; omega)
    (by unfold U32 at *; omega)]
  rw [isInsideBS_iff (by unfold U32 at *; omega) (by unfold U32 at *; omega)
    (by unfold U32 at *; omega)]
  constructor
  · rintro ⟨-, hx, hy⟩
    exact ⟨hx.1, hx.2, hy.1, hy.2⟩
  · rintro ⟨h1, h2, h3, h4⟩
    exact ⟨by omega, ⟨h1, h2⟩, h3, h4⟩

/-- Characterization of one `AreaAdd` step on a well-formed area. -/
theorem areaAdd_char (hm : MapOK m) {ta : GenericTileArea} {t : Nat}
    (hwf : AreaWF m ta) (ht : t < MapSize m) :
    AreaWF m (AreaAdd ta t) ∧
      TileX m (AreaAdd ta t).tile = min (TileX m t) (TileX m ta.tile) ∧
      TileY m (AreaAdd ta t).tile = min (TileY m t) (TileY m ta.tile) ∧
      (AreaAdd ta t).w =
        max (TileX m t) (TileX m ta.tile + ta.w - 1) -
          min (TileX m t) (TileX m ta.tile) + 1 ∧
      (AreaAdd ta t).h =
        max (TileY m t) (TileY m ta.tile + ta.h - 1) -
          min (TileY m t) (TileY m ta.tile) + 1 := by
  obtain ⟨hmap, hvalid, hw1, hh1, hxb, hyb⟩ := hwf
  obtain ⟨hsx, hsy⟩ := tile_coords_lt hm hvalid
  obtain ⟨hax, hay⟩ := tile_coords_lt hm ht
  have hW : m.size_x ≤ 32768 := hm.2.2.1
  have hH : m.size_y ≤ 32768 := hm.2.2.2
  have hstep : AreaAdd ta t =
      { map := ta.map,
        tile := TileXY m (min (TileX m t) (TileX m ta.tile))
          (min (TileY m t) (TileY m ta.tile)),
        w := max (TileX m t) (TileX m ta.tile + ta.w - 1) -
          min (TileX m t) (TileX m ta.tile) + 1,
        h := max (TileY m t) (TileY m ta.tile + ta.h - 1) -
          min (TileY m t) (TileY m ta.tile) + 1 } := by
    unfold AreaAdd
    rw [if_neg (by rw [hmap]; simp [hvalid])]
    rw [hmap]
    have hex : (TileX m ta.tile + ta.w + U32 - 1) % U32 = TileX m ta.tile + ta.w - 1 := by
      unfold U32 at *
      omega
    have hey : (TileY m ta.tile + ta.h + U32 - 1) % U32 = TileY m ta.tile + ta.h - 1 := by
      unfold U32 at *
      omega
    have hwmod : (max (TileX m t) (TileX m ta.tile + ta.w - 1) -
        min (TileX m t) (TileX m ta.tile) + 1) % U16 =
        max (TileX m t) (TileX m ta.tile + ta.w - 1) -
          min (TileX m t) (TileX m ta.tile) + 1 := by
      apply Nat.mod_eq_of_lt
      unfold U16
      omega
    have hhmod : (max (TileY m t) (TileY m ta.tile + ta.h - 1) -
        min (TileY m t) (TileY m ta.tile) + 1) % U16 =
        max (TileY m t) (TileY m ta.tile + ta.h - 1) -
          min (TileY m t) (TileY m ta.tile) + 1 := by
      apply Nat.mod_eq_of_lt
      unfold U16
      omega
    simp only [hex, hey, hwmod, hhmod]
  have hminx : min (TileX m t) (TileX m ta.tile) < m.size_x := by omega
  have hminy : min (TileY m t) (TileY m ta.tile) < m.size_y := by omega
  have hval : IsValidTileIndex m (AreaAdd ta t).tile := by
    rw [hstep]; exact tileXY_valid hm hminx hminy
  have htx : TileX m (AreaAdd ta t).tile = min (TileX m t) (TileX m ta.tile) := by
    rw [hstep]; exact tileXY_x hm hminx hminy
  have hty : TileY m (AreaAdd ta t).tile = min (TileY m t) (TileY m ta.tile) := by
    rw [hstep]; exact tileXY_y hm hminx hminy
  have hwv : (AreaAdd ta t).w =
      max (TileX m t) (TileX m ta.tile + ta.w - 1) -
        min (TileX m t) (TileX m ta.tile) + 1 := by
    rw [hstep]
  have hhv : (AreaAdd ta t).h =
      max (TileY m t) (TileY m ta.tile + ta.h - 1) -
        min (TileY m t) (TileY m ta.tile) + 1 := by
    rw [hstep]
  have hmv : (AreaAdd ta t).map = m := by rw [hstep]; exact hmap
  refine ⟨⟨hmv, hval, ?_, ?_, ?_, ?_⟩, htx, hty, hwv, hhv⟩
  · rw [hwv]; omega
  · rw [hhv]; omega
  · rw [htx, hwv]; omega
  · rw [hty, hhv]; omega

/-- Folding `AreaAdd` over a list of valid tiles: the result is well formed,
contains every added tile and the start area, and is contained in every box
that covers the added tiles and the start area. -/
theorem areaFold_po (hm : MapOK m) (ts : List Nat) (ta : GenericTileArea)
    (hwf : AreaWF m ta) (hts : ∀ t ∈ ts, t < MapSize m) :
    AreaWF m (ts.foldl AreaAdd ta) ∧
      (∀ t ∈ ts, AreaContains (ts.foldl AreaAdd ta) t) ∧
      (∀ u, u < MapSize m → AreaContains ta u →
        AreaContains (ts.foldl AreaAdd ta) u) ∧
      (∀ B : Box, (∀ t ∈ ts, B.containsPt (TileX m t) (TileY m t)) →
        (∀ u, u < MapSize m → AreaContains ta u →
          B.containsPt (TileX m u) (TileY m u)) →
        ∀ u, u < MapSize m → AreaContains (ts.foldl AreaAdd ta) u →
          B.containsPt (TileX m u) (TileY m u)) := by
  induction ts generalizing ta with
  | nil =>
    exact ⟨hwf, by simp, fun u _ hC => hC, fun B _ hB2 u hu hC => hB2 u hu hC⟩
  | cons t rest ih =>
    have htmem : t < MapSize m := hts t (List.mem_cons_self t rest)
    obtain ⟨hwf2, htx, hty, hwv, hhv⟩ := areaAdd_char hm hwf htmem
    have hrest : ∀ t2 ∈ rest, t2 < MapSize m := fun t2 h2 =>
      hts t2 (List.mem_cons_of_mem t h2)
    obtain ⟨ihWF, ihMem, ihMono, ihMin⟩ := ih (AreaAdd ta t) hwf2 hrest
    -- the freshly added tile lies in the grown area
    have htIn : AreaContains (AreaAdd ta t) t := by
      rw [areaContains_iff hm hwf2 htmem, htx, hty, hwv, hhv]
      omega
    -- the grown area still covers the old one
    have hMono1 : ∀ u, u < MapSize m → AreaContains ta u → AreaContains (AreaAdd ta t) u := by
      intro u hu hC
      rw [areaContains_iff hm hwf hu] at hC
      rw [areaContains_iff hm hwf2 hu, htx, hty, hwv, hhv]
      omega
    refine ⟨ihWF, ?_, ?_, ?_⟩
    · intro t2 ht2
      rcases List.mem_cons.mp ht2 with h | h
      · subst h
        exact ihMono t2 htmem htIn
      · exact ihMem t2 h
    · intro u hu hC
      exact ihMono u hu (hMono1 u hu hC)
    · intro B hBts hBta u hu hC
      refine ihMin B (fun t2 h2 => hBts t2 (List.mem_cons_of_mem t h2)) ?_ u hu hC
      -- every point of the grown area lies in B
      intro v hv hCv
      rw [areaContains_iff hm hwf2 hv, htx, hty, hwv, hhv] at hCv
      obtain ⟨hmap, hvalid, hw1, hh1, hxb, hyb⟩ := hwf
      obtain ⟨hsx, hsy⟩ := tile_coords_lt hm hvalid
      have hc1 : B.containsPt (TileX m ta.tile) (TileY m ta.tile) := by
        refine hBta ta.tile hvalid ?_
        rw [areaContains_iff hm ⟨hmap, hvalid, hw1, hh1, hxb, hyb⟩ hvalid]
        omega
      have hfx : TileX m ta.tile + ta.w - 1 < m.size_x := by omega
      have hfy : TileY m ta.tile + ta.h - 1 < m.size_y := by omega
      have hcv : IsValidTileIndex m
          (TileXY m (TileX m ta.tile + ta.w - 1) (TileY m ta.tile + ta.h - 1)) :=
        tileXY_valid hm hfx hfy
      have hc2 : B.containsPt (TileX m ta.tile + ta.w - 1) (TileY m ta.tile + ta.h - 1) := by
        have h2 := hBta _ hcv ?_
        · rwa [tileXY_x hm hfx hfy, tileXY_y hm hfx hfy] at h2
        · rw [areaContains_iff hm ⟨hmap, hvalid, hw1, hh1, hxb, hyb⟩ hcv,
            tileXY_x hm hfx hfy, tileXY_y hm hfx hfy]
          omega
      have hc3 : B.containsPt (TileX m t) (TileY m t) := hBts t (List.mem_cons_self t rest)
      unfold Box.containsPt at *
      omega

end AreaLemmas

/-! Invariants of the diagonal iterator. -/

/-- Sanity of a diagonal area as produced by the two-corner constructor:
base tile valid, extents nonzero with one-past-end semantics, extents
bounded by the coordinate range. -/
def DiagAreaOK (m : MapT) (ta : DiagonalTileAreaM) : Prop :=
  ta.map = m ∧ ta.tile < MapSize m ∧
    (2 ≤ ta.a ∨ ta.a ≤ -1) ∧ (2 ≤ ta.b ∨ ta.b ≤ -1) ∧
    ta.a.natAbs ≤ 131072 ∧ ta.b.natAbs ≤ 131072

/-- The rotated-coordinate invariant of the diagonal iterator: the fixed
fields agree with the area, `a_cur` stays in the current line's half-open
range, `b_cur` stays between 0 and the terminating line, and the rotated
coordinates have even difference except on the terminating line. -/
def DiagCoordsInv (m : MapT) (ta : DiagonalTileAreaM) (s : DiagIterState) : Prop :=
  s.map = m ∧ s.base_x = TileX m ta.tile ∧ s.base_y = TileY m ta.tile ∧
    s.a_max = ta.a ∧ s.b_max = ta.b ∧
    (if 0 < ta.a then 0 ≤ s.a_cur ∧ s.a_cur < ta.a else ta.a < s.a_cur ∧ s.a_cur ≤ 0) ∧
    (if 0 < ta.b then 0 ≤ s.b_cur ∧ s.b_cur ≤ ta.b else ta.b ≤ s.b_cur ∧ s.b_cur ≤ 0) ∧
    ((s.a_cur + s.b_cur) % 2 = 0 ∨ s.b_cur = ta.b)

/-- Full iterator invariant: the rotated-coordinate invariant plus, for a
valid current tile, the correspondence between the tile's coordinates and
the rotated coordinates. -/
def DiagInv (m : MapT) (ta : DiagonalTileAreaM) (s : DiagIterState) : Prop :=
  DiagCoordsInv m ta s ∧
    (s.tile < MapSize m →
      (TileX m s.tile : Int) = (s.base_x : Int) + (s.a_cur - s.b_cur).tdiv 2 ∧
      (TileY m s.tile : Int) = (s.base_y : Int) + (s.b_cur + s.a_cur).tdiv 2)

section DiagLemmas

variable {m : MapT} {ta : DiagonalTileAreaM}

theorem diagAreaFromCorners_ok (hm : MapOK m) {c1 c2 : Nat}
    (h1 : c1 < MapSize m) (h2 : c2 < MapSize m) :
    DiagAreaOK m (DiagonalTileAreaFromCorners m c1 c2) := by
  obtain ⟨hx1, hy1⟩ := tile_coords_lt hm h1
  obtain ⟨hx2, hy2⟩ := tile_coords_lt hm h2
  have hW : m.size_x ≤ 32768 := hm.2.2.1
  have hH : m.size_y ≤ 32768 := hm.2.2.2
  unfold DiagAreaOK
  simp only [DiagonalTileAreaFromCorners]
  refine ⟨trivial, h1, ?_, ?_, ?_, ?_⟩ <;> split_ifs <;> omega

theorem diagAdvance_coords (hta : DiagAreaOK m ta) {s : DiagIterState}
    (hs : DiagCoordsInv m ta s) (hne : s.b_cur ≠ s.b_max) :
    DiagCoordsInv m ta (diagAdvance s) ∧ (diagAdvance s).tile = s.tile := by
  obtain ⟨hmap, htile, haz, hbz, haA, hbA⟩ := hta
  obtain ⟨hsm, hbx, hby, hamax, hbmax, har, hbr, hpar⟩ := hs
  have hparE : (s.a_cur + s.b_cur) % 2 = 0 := by
    rcases hpar with h | h
    · exact h
    · exact absurd (h.trans hbmax.symm) hne
  unfold DiagCoordsInv
  unfold diagAdvance
  split_ifs at * <;> dsimp only <;> (try simp only [and_true]) <;>
    first
      | (refine ⟨hsm, hbx, hby, hamax, hbmax, ?_, ?_, ?_⟩ <;> omega)
      | (split_ifs <;> dsimp only <;> (try simp only [and_true]) <;>
          refine ⟨hsm, hbx, hby, hamax, hbmax, ?_, ?_, ?_⟩ <;> omega)

theorem invalid_not_lt (hm : MapOK m) : ¬ INVALID_TILE_INDEX < MapSize m := by
  have := mapOK_size_lt hm
  unfold INVALID_TILE_INDEX at *
  omega

theorem wrap32_coord {base : Nat} {d : Int} {W : Nat} (hbase : base ≤ 32768)
    (hd : d.natAbs ≤ 131073) (hW : W ≤ 32768) (h : wrap32 ((base : Int) + d) < W) :
    0 ≤ (base : Int) + d ∧ ((wrap32 ((base : Int) + d)) : Int) = (base : Int) + d := by
  unfold wrap32 U32 at *
  omega

theorem diagStep_inv (hm : MapOK m) (hta : DiagAreaOK m ta) {s : DiagIterState}
    (hs : DiagInv m ta s) (hne : s.b_cur ≠ s.b_max) : DiagInv m ta (diagStep s) := by
  obtain ⟨hcoords, -⟩ := hs
  obtain ⟨hc1, -⟩ := diagAdvance_coords hta hcoords hne
  obtain ⟨hmap, htile, haz, hbz, haA, hbA⟩ := hta
  obtain ⟨hbxv, hbyv⟩ := tile_coords_lt hm htile
  obtain ⟨hsm, hbx, hby, hamax, hbmax, har, hbr, hpar⟩ := hc1
  have hW : m.size_x ≤ 32768 := hm.2.2.1
  have hH : m.size_y ≤ 32768 := hm.2.2.2
  have haabs : (diagAdvance s).a_cur.natAbs ≤ 131072 := by
    split_ifs at har <;> omega
  have hbabs : (diagAdvance s).b_cur.natAbs ≤ 131072 := by
    split_ifs at hbr <;> omega
  have hdA : (((diagAdvance s).a_cur - (diagAdvance s).b_cur).tdiv 2).natAbs ≤ 131073 := by
    have h1 : (((diagAdvance s).a_cur - (diagAdvance s).b_cur).tdiv 2).natAbs =
        ((diagAdvance s).a_cur - (diagAdvance s).b_cur).natAbs / 2 :=
      Int.natAbs_tdiv ((diagAdvance s).a_cur - (diagAdvance s).b_cur) 2
    rw [h1]
    omega
  have hdB : (((diagAdvance s).b_cur + (diagAdvance s).a_cur).tdiv 2).natAbs ≤ 131073 := by
    have h1 : (((diagAdvance s).b_cur + (diagAdvance s).a_cur).tdiv 2).natAbs =
        ((diagAdvance s).b_cur + (diagAdvance s).a_cur).natAbs / 2 :=
      Int.natAbs_tdiv ((diagAdvance s).b_cur + (diagAdvance s).a_cur) 2
    rw [h1]
    omega
  simp only [diagStep]
  split_ifs with hguard
  · refine ⟨⟨hsm, hbx, hby, hamax, hbmax, har, hbr, hpar⟩, fun h => ?_⟩
    exact absurd h (invalid_not_lt hm)
  · push_neg at hguard
    obtain ⟨hxlt, hylt⟩ := hguard
    rw [hsm] at hxlt hylt
    have hxb : (diagAdvance s).base_x ≤ 32768 := by omega
    have hyb : (diagAdvance s).base_y ≤ 32768 := by omega
    obtain ⟨hxnn, hxeq⟩ := wrap32_coord hxb hdA hW hxlt
    obtain ⟨hynn, hyeq⟩ := wrap32_coord hyb hdB hH hylt
    refine ⟨⟨hsm, hbx, hby, hamax, hbmax, har, hbr, hpar⟩, fun _ => ?_⟩
    rw [hsm]
    constructor
    · rw [tileXY_x hm hxlt hylt]
      exact hxeq
    · rw [tileXY_y hm hxlt hylt]
      exact hyeq

theorem diagNext_inv (hm : MapOK m) (hta : DiagAreaOK m ta) (f : Nat) :
    ∀ {s : DiagIterState}, DiagInv m ta s → s.b_cur ≠ s.b_max →
      DiagInv m ta (diagNext f s) ∧
        ((diagNext f s).tile < MapSize m →
          (diagNext f s).b_cur ≠ (diagNext f s).b_max) := by
  induction f with
  | zero =>
    intro s hs _
    refine ⟨⟨hs.1, fun h => absurd h (invalid_not_lt hm)⟩,
      fun h => absurd h (invalid_not_lt hm)⟩
  | succ f ih =>
    intro s hs hne
    have hstep := diagStep_inv hm hta hs hne
    have hunf : diagNext (f + 1) s =
        (if ¬ (diagStep s).tile < MapSize (diagStep s).map ∧
            (diagStep s).b_max ≠ (diagStep s).b_cur then
          diagNext f (diagStep s)
        else if (diagStep s).b_max = (diagStep s).b_cur then
          { diagStep s with tile := INVALID_TILE_INDEX }
        else diagStep s) := rfl
    rw [hunf]
    split_ifs with hcont hend
    · exact ih hstep (Ne.symm hcont.2)
    · exact ⟨⟨hstep.1, fun h => absurd h (invalid_not_lt hm)⟩,
        fun h => absurd h (invalid_not_lt hm)⟩
    · exact ⟨hstep, fun _ => Ne.symm hend⟩

theorem diagTraj_inv (hm : MapOK m) (hta : DiagAreaOK m ta) (fuels : List Nat) :
    ∀ {s : DiagIterState}, DiagInv m ta s →
      (s.tile < MapSize m → s.b_cur ≠ s.b_max) →
      ∀ s2 ∈ diagTraj fuels s,
        DiagInv m ta s2 ∧ (s2.tile < MapSize m → s2.b_cur ≠ s2.b_max) := by
  induction fuels with
  | nil =>
    intro s hs hyv s2 h2
    unfold diagTraj at h2
    rw [List.mem_singleton] at h2
    subst h2
    exact ⟨hs, hyv⟩
  | cons f fs ih =>
    intro s hs hyv s2 h2
    unfold diagTraj at h2
    split_ifs at h2 with hv
    · rcases List.mem_cons.mp h2 with h | h
      · subst h
        exact ⟨hs, hyv⟩
      · have hvm : s.tile < MapSize m := by rwa [hs.1.1] at hv
        exact ih (diagNext_inv hm hta f hs (hyv hvm)).1
          (diagNext_inv hm hta f hs (hyv hvm)).2 s2 h
    · rw [List.mem_singleton] at h2
      subst h2
      exact ⟨hs, hyv⟩

theorem diag_yield_contains (hm : MapOK m) (hta : DiagAreaOK m ta)
    {s : DiagIterState} (hinv : DiagInv m ta s) (hv : s.tile < MapSize m)
    (hne : s.b_cur ≠ s.b_max) :
    DiagContains ta s.tile ∧ TileX m s.tile < m.size_x ∧
      TileY m s.tile < m.size_y := by
  obtain ⟨⟨hsm, hbx, hby, hamax, hbmax, har, hbr, hpar⟩, hcorr⟩ := hinv
  obtain ⟨hcx, hcy⟩ := hcorr hv
  obtain ⟨hmap, htile, haz, hbz, haA, hbA⟩ := hta
  have hparE : (s.a_cur + s.b_cur) % 2 = 0 := by
    rcases hpar with h | h
    · exact h
    · exact absurd (h.trans hbmax.symm) hne
  obtain ⟨p, hp⟩ : ∃ p, s.a_cur - s.b_cur = 2 * p :=
    ⟨(s.a_cur - s.b_cur) / 2, by omega⟩
  obtain ⟨q, hq⟩ : ∃ q, s.b_cur + s.a_cur = 2 * q :=
    ⟨(s.b_cur + s.a_cur) / 2, by omega⟩
  rw [hp, Int.mul_tdiv_cancel_left _ (by norm_num)] at hcx
  rw [hq, Int.mul_tdiv_cancel_left _ (by norm_num)] at hcy
  obtain ⟨hqx, hqy⟩ := tile_coords_lt hm hv
  refine ⟨?_, hqx, hqy⟩
  simp only [DiagContains, hmap]
  have hne2 : s.b_cur ≠ ta.b := fun h => hne (h.trans hbmax.symm)
  rw [← hbx, ← hby]
  split_ifs at har hbr ⊢ <;> omega

theorem diagIterInit_inv (hm : MapOK m) (hta : DiagAreaOK m ta) :
    DiagInv m ta (DiagIterInit ta) ∧
      ((DiagIterInit ta).tile < MapSize m →
        (DiagIterInit ta).b_cur ≠ (DiagIterInit ta).b_max) := by
  obtain ⟨hmap, htile, haz, hbz, haA, hbA⟩ := hta
  have hb0 : (0 : Int) ≠ ta.b := by omega
  have ha0 : (DiagIterInit ta).a_cur = 0 := rfl
  have hb0c : (DiagIterInit ta).b_cur = 0 := rfl
  have htl : (DiagIterInit ta).tile = ta.tile := rfl
  have hbx : (DiagIterInit ta).base_x = TileX m ta.tile := by
    rw [show (DiagIterInit ta).base_x = TileX ta.map ta.tile from rfl, hmap]
  have hby : (DiagIterInit ta).base_y = TileY m ta.tile := by
    rw [show (DiagIterInit ta).base_y = TileY ta.map ta.tile from rfl, hmap]
  refine ⟨⟨⟨?_, hbx, hby, rfl, rfl, ?_, ?_, ?_⟩, fun _ => ?_⟩, fun _ => ?_⟩
  · exact hmap
  · rw [ha0]
    split_ifs <;> omega
  · rw [hb0c]
    split_ifs <;> omega
  · left
    rw [ha0, hb0c]
    decide
  · rw [htl, hbx, hby, ha0, hb0c]
    norm_num
  · rw [hb0c, show (DiagIterInit ta).b_max = ta.b from rfl]
    exact hb0

end DiagLemmas

end OpenTTD

namespace OpenTTD

/-! ## Terraform engine (`src/terraform_cmd.cpp`)

The recursive corner propagation `TerraformTileHeight` is modelled with a
fuel parameter (running out of fuel yields the distinct marker error
`fuelExhausted`, never a wrong success).  `std::set` / `std::map` are
modelled as ascending sorted lists, matching their iteration order.  Costs
track the `CommandCost` money amounts; error identity replaces `StringID`
values (only identity and `STR_NULL`-ness matter here). -/

/-- The string constants used by the terraform engine (identity only). -/
inductive StringID where
  | STR_NULL
  | STR_ERROR_ALREADY_AT_SEA_LEVEL
  | STR_ERROR_TOO_HIGH
  | CMD_ERROR
  | STR_ERROR_TOO_CLOSE_TO_EDGE_OF_MAP
  | STR_ERROR_MUST_DEMOLISH_BRIDGE_FIRST
  | STR_ERROR_BRIDGE_TOO_HIGH_AFTER_LOWER_LAND
  | STR_ERROR_EXCAVATION_WOULD_DAMAGE
  | STR_ERROR_TERRAFORM_LIMIT_REACHED
  | STR_ERROR_ALREADY_LEVELLED
  | fuelExhausted
  | other (n : Nat)
deriving DecidableEq, Repr

/-- Modelled from the spec: the `Slope` bit values (slope_type.h is not among
the sources): west/south/east/north corner bits plus the steep flag. -/
def SLOPE_FLAT : Nat := 0
def SLOPE_W : Nat := 1
def SLOPE_S : Nat := 2
def SLOPE_E : Nat := 4
def SLOPE_N : Nat := 8
def SLOPE_STEEP : Nat := 16

/-- Modelled from the spec: `DoCommandFlag` bits (command_type.h is not among
the sources); only `DC_EXEC`'s identity is semantically relevant here. -/
def DC_EXEC : Nat := 1
def DC_AUTO : Nat := 2
def DC_NO_MODIFY_TOWN_RATING : Nat := 1024
def DC_FORCE_CLEAR_TILE : Nat := 4096

/-- `std::set<TileIndex>` insertion: ascending sorted list without
duplicates. -/
def setInsert : List Nat → Nat → List Nat
  | [], k => [k]
  | x :: xs, k =>
    if k < x then k :: x :: xs
    else if k = x then x :: xs
    else x :: setInsert xs k

/-- `std::map<TileIndex, int>` insertion/overwrite: ascending sorted
association list without duplicate keys. -/
def mapInsert : List (Nat × Int) → Nat → Int → List (Nat × Int)
  | [], k, v => [(k, v)]
  | (k2, v2) :: xs, k, v =>
    if k < k2 then (k, v) :: (k2, v2) :: xs
    else if k = k2 then (k, v) :: xs
    else (k2, v2) :: mapInsert xs k v

/-- `std::map` lookup. -/
def mapFind : List (Nat × Int) → Nat → Option Int
  | [], _ => none
  | (k2, v2) :: xs, k => if k = k2 then some v2 else mapFind xs k

/-- `TerraformerState`: dirty tiles and the pending height modifications. -/
structure TerraformerState where
  dirty_tiles : List Nat
  tile_to_new_height : List (Nat × Int)
deriving DecidableEq, Repr

/-- The ambient world of one terraform command: the (main) map, the stored
tile heights (`TileHeight`), and the relevant `_settings_game` /
`_price` values. -/
structure TerraformCtx where
  map : MapT
  heightOf : Nat → Int
  max_heightlevel : Int
  freeform_edges : Bool
  price_terraform : Int

/-- `TerraformGetHeightOfTile`. -/
def TerraformGetHeightOfTile (ctx : TerraformCtx) (ts : TerraformerState)
    (tile : Nat) : Int :=
  match mapFind ts.tile_to_new_height tile with
  | some h => h
  | none => ctx.heightOf tile

/-- `TerraformSetHeightOfTile`. -/
def TerraformSetHeightOfTile (ts : TerraformerState) (tile : Nat) (height : Int) :
    TerraformerState :=
  { ts with tile_to_new_height := mapInsert ts.tile_to_new_height tile height }

/-- `TerraformAddDirtyTile`. -/
def TerraformAddDirtyTile (ts : TerraformerState) (tile : Nat) : TerraformerState :=
  { ts with dirty_tiles := setInsert ts.dirty_tiles tile }

/-- `TileDiffXY(x, y)` as a signed offset. -/
def TileDiffXY (m : MapT) (x y : Int) : Int := y * (m.size_x : Int) + x

/-- `TerraformAddDirtyTileAround`: all tiles incident with the north corner. -/
def TerraformAddDirtyTileAround (ctx : TerraformCtx) (ts : TerraformerState)
    (tile : Nat) : TerraformerState :=
  let m := ctx.map
  let ts1 := if TileY m tile ≥ 1 then
    TerraformAddDirtyTile ts (wrap32 ((tile : Int) + TileDiffXY m 0 (-1))) else ts
  let ts2 := if TileY m tile ≥ 1 ∧ TileX m tile ≥ 1 then
    TerraformAddDirtyTile ts1 (wrap32 ((tile : Int) + TileDiffXY m (-1) (-1))) else ts1
  let ts3 := if TileX m tile ≥ 1 then
    TerraformAddDirtyTile ts2 (wrap32 ((tile : Int) + TileDiffXY m (-1) 0)) else ts2
  TerraformAddDirtyTile ts3 tile

/-- The `_terraform_tilepos` table: cumulative moves SE, NW, SW, NE. -/
def terraform_tilepos : List (Int × Int) := [(1, 0), (-2, 0), (1, 1), (0, -2)]

/-- The retarget height of the recursion of `TerraformTileHeight`:
`height_diff += (height_diff < 0 ? 1 : -1); ... r + height_diff`. -/
def retargetHeight (r height : Int) : Int :=
  r + ((height - r) + (if height - r < 0 then 1 else -1))

mutual

/-- `TerraformTileHeight(ts, tile, height)`: terraform the north corner of
`tile` to `height`, recursively retargeting the four neighbouring corners
whose height would differ by more than 1.  The unbounded C recursion carries
a fuel parameter here. -/
def TerraformTileHeight (ctx : TerraformCtx) :
    Nat → TerraformerState → Nat → Int → Except StringID (TerraformerState × Int)
  | 0, _, _, _ => .error .fuelExhausted
  | fuel + 1, ts, tile, height =>
    if height < 0 then .error .STR_ERROR_ALREADY_AT_SEA_LEVEL
    else if height > ctx.max_heightlevel then .error .STR_ERROR_TOO_HIGH
    else if height = TerraformGetHeightOfTile ctx ts tile then .error .CMD_ERROR
    else if ¬ ctx.freeform_edges ∧
        (TileX ctx.map tile ≤ 1 ∨ TileY ctx.map tile ≤ 1 ∨
          TileX ctx.map tile ≥ MapMaxX ctx.map - 1 ∨
          TileY ctx.map tile ≥ MapMaxY ctx.map - 1) then
      .error .STR_ERROR_TOO_CLOSE_TO_EDGE_OF_MAP
    else
      let ts1 := TerraformAddDirtyTileAround ctx ts tile
      let ts2 := TerraformSetHeightOfTile ts1 tile height
      TerraformTileHeightLoop ctx fuel ts2 tile height tile terraform_tilepos
        ctx.price_terraform
termination_by fuel ts tile height => (fuel, 0)

/-- The neighbour loop of `TerraformTileHeight`: walk the `_terraform_tilepos`
offsets accumulating the current tile index in `uint32` arithmetic, skip
tiles that fall off or wrap around the map, and recurse on neighbouring
corners whose height differs by more than 1. -/
def TerraformTileHeightLoop (ctx : TerraformCtx) :
    Nat → TerraformerState → Nat → Int → Nat → List (Int × Int) → Int →
      Except StringID (TerraformerState × Int)
  | _, ts, _, _, _, [], acc => .ok (ts, acc)
  | fuel, ts, orig, height, cur, d :: ds, acc =>
    let cur2 := wrap32 ((cur : Int) + TileDiffXY ctx.map d.1 d.2)
    if cur2 ≥ MapSize ctx.map then
      TerraformTileHeightLoop ctx fuel ts orig height cur2 ds acc
    else if Delta (TileX ctx.map orig) (TileX ctx.map cur2) = ctx.map.size_x - 1 then
      TerraformTileHeightLoop ctx fuel ts orig height cur2 ds acc
    else if Delta (TileY ctx.map orig) (TileY ctx.map cur2) = ctx.map.size_y - 1 then
      TerraformTileHeightLoop ctx fuel ts orig height cur2 ds acc
    else
      let r := TerraformGetHeightOfTile ctx ts cur2
      let height_diff := height - r
      if 1 < height_diff.natAbs then
        match TerraformTileHeight ctx fuel ts cur2 (retargetHeight r height) with
        | .error e => .error e
        | .ok (ts2, cost) =>
          TerraformTileHeightLoop ctx fuel ts2 orig height cur2 ds (acc + cost)
      else
        TerraformTileHeightLoop ctx fuel ts orig height cur2 ds acc
termination_by fuel ts orig height cur ds acc => (fuel, ds.length + 1)

end

/-- Modelled from the spec: the external collaborators the pass loop of
`CmdTerraformLand` consults — bridge/tunnel queries (`bridge_map.h`,
`tunnel_map.h`), the cleared-object registry, the per-tile-type terraform
hook `_tile_type_procs[...]->terraform_tile_proc` and the landscape-clear
command.  They are outside this core and are modelled as opaque functions
returning costs or errors; per §6 of the spec they never touch stored tile
heights. -/
structure TerraformHooks where
  isTileVoid : Nat → Bool
  isBridgeAbove : Nat → Bool
  bridgeHeightOfSouthEnd : Nat → Int
  max_bridge_height : Int
  isTunnelInWay : Nat → Int → Bool
  clearedObjectFirstTileDiffers : Nat → Bool
  landscapeClear : Nat → Nat → Except StringID Int
  terraformProc : Nat → Nat → Int → Nat → Except StringID Int

/-- One of the four conditional corner calls at the start of
`CmdTerraformLand`. -/
def cornerStep (ctx : TerraformCtx) (fuel : Nat) (direction : Int) (cond : Bool)
    (t : Nat) (st : TerraformerState × Int) :
    Except StringID (TerraformerState × Int) :=
  if cond then
    match TerraformTileHeight ctx fuel st.1 t (ctx.heightOf t + direction) with
    | .error e => .error e
    | .ok (ts2, cost) => .ok (ts2, st.2 + cost)
  else .ok st

/-- The four corner calls of `CmdTerraformLand` (slopes W, S, E, N), starting
from the empty `TerraformerState`. -/
def terraformCornerCalls (ctx : TerraformCtx) (fuel : Nat) (tile : Nat)
    (p1 p2 : Nat) : Except StringID (TerraformerState × Int) := do
  let direction : Int := if p2 ≠ 0 then 1 else -1
  let st ← cornerStep ctx fuel direction
    (decide (p1 &&& SLOPE_W ≠ 0) && decide (wrap32 ((tile : Int) + TileDiffXY ctx.map 1 0) < MapSize ctx.map))
    (wrap32 ((tile : Int) + TileDiffXY ctx.map 1 0)) (⟨[], []⟩, 0)
  let st ← cornerStep ctx fuel direction
    (decide (p1 &&& SLOPE_S ≠ 0) && decide (wrap32 ((tile : Int) + TileDiffXY ctx.map 1 1) < MapSize ctx.map))
    (wrap32 ((tile : Int) + TileDiffXY ctx.map 1 1)) st
  let st ← cornerStep ctx fuel direction
    (decide (p1 &&& SLOPE_E ≠ 0) && decide (wrap32 ((tile : Int) + TileDiffXY ctx.map 0 1) < MapSize ctx.map))
    (wrap32 ((tile : Int) + TileDiffXY ctx.map 0 1)) st
  cornerStep ctx fuel direction (decide (p1 &&& SLOPE_N ≠ 0)) tile st

/-- The per-tile body of the two validation/cost passes of
`CmdTerraformLand`. -/
def terraformPassTile (ctx : TerraformCtx) (hooks : TerraformHooks)
    (ts : TerraformerState) (flags : Nat) (direction : Int) (pass : Nat)
    (tile : Nat) : Except StringID Int :=
  if hooks.isTileVoid tile then .ok 0
  else
    let z_N := TerraformGetHeightOfTile ctx ts (wrap32 ((tile : Int) + TileDiffXY ctx.map 0 0))
    let z_W := TerraformGetHeightOfTile ctx ts (wrap32 ((tile : Int) + TileDiffXY ctx.map 1 0))
    let z_S := TerraformGetHeightOfTile ctx ts (wrap32 ((tile : Int) + TileDiffXY ctx.map 1 1))
    let z_E := TerraformGetHeightOfTile ctx ts (wrap32 ((tile : Int) + TileDiffXY ctx.map 0 1))
    let z_min := min (min z_N z_W) (min z_S z_E)
    let z_max := max (max z_N z_W) (max z_S z_E)
    let tileh : Nat :=
      (if z_max > z_min + 1 then SLOPE_STEEP else SLOPE_FLAT) |||
        (if z_W > z_min then SLOPE_W else 0) ||| (if z_S > z_min then SLOPE_S else 0) |||
        (if z_E > z_min then SLOPE_E else 0) ||| (if z_N > z_min then SLOPE_N else 0)
    if pass = 0 ∧ hooks.isBridgeAbove tile ∧ direction = 1 ∧
        hooks.bridgeHeightOfSouthEnd tile ≤ z_max then
      .error .STR_ERROR_MUST_DEMOLISH_BRIDGE_FIRST
    else if pass = 0 ∧ hooks.isBridgeAbove tile ∧ direction = -1 ∧
        hooks.bridgeHeightOfSouthEnd tile > z_min + hooks.max_bridge_height then
      .error .STR_ERROR_BRIDGE_TOO_HIGH_AFTER_LOWER_LAND
    else if pass = 0 ∧ direction = -1 ∧ hooks.isTunnelInWay tile z_min then
      .error .STR_ERROR_EXCAVATION_WOULD_DAMAGE
    else
      let base_flags := flags ||| DC_AUTO ||| DC_FORCE_CLEAR_TILE
      let tile_flags := if pass = 0 then
        (base_flags &&& (U32 - 1 - DC_EXEC)) ||| DC_NO_MODIFY_TOWN_RATING
      else base_flags
      if hooks.clearedObjectFirstTileDiffers tile then
        hooks.landscapeClear tile tile_flags
      else hooks.terraformProc tile tile_flags z_min tileh

/-- One validation/cost pass of `CmdTerraformLand` over the dirty tiles (in
ascending `std::set` order), summing the per-tile costs. -/
def terraformPassLoop (ctx : TerraformCtx) (hooks : TerraformHooks)
    (ts : TerraformerState) (flags : Nat) (direction : Int) (pass : Nat) :
    List Nat → Except StringID Int
  | [] => .ok 0
  | t :: rest =>
    match terraformPassTile ctx hooks ts flags direction pass t with
    | .error e => .error e
    | .ok c =>
      match terraformPassLoop ctx hooks ts flags direction pass rest with
      | .error e => .error e
      | .ok c2 => .ok (c + c2)

/-- The `DC_EXEC` commit: `SetTileHeight` for every recorded corner, in
ascending key order. -/
def commitHeights : List (Nat × Int) → (Nat → Int) → (Nat → Int)
  | [], h => h
  | (t, v) :: rest, h => commitHeights rest (fun c => if c = t then v else h c)

/-- `uint32` subtraction (for the company counter decrement). -/
def sub32 (a b : Nat) : Nat := (a + U32 - b % U32) % U32

/-- `CmdTerraformLand(tile, flags, p1, p2)`: the full command.  Returns the
command result, the final stored-height function — changed only by a
successful `DC_EXEC` commit — and the owning company's final
`terraform_limit` counter (`none` models `Company::GetIfValid` failing). -/
def CmdTerraformLand (ctx : TerraformCtx) (hooks : TerraformHooks)
    (company_terraform_limit : Option Nat) (fuel : Nat) (tile : Nat)
    (flags : Nat) (p1 p2 : Nat) :
    Except StringID Int × (Nat → Int) × Option Nat :=
  let direction : Int := if p2 ≠ 0 then 1 else -1
  match terraformCornerCalls ctx fuel tile p1 p2 with
  | .error e => (.error e, ctx.heightOf, company_terraform_limit)
  | .ok (ts, cost0) =>
    match terraformPassLoop ctx hooks ts flags direction 0 ts.dirty_tiles with
    | .error e => (.error e, ctx.heightOf, company_terraform_limit)
    | .ok _ =>
      match terraformPassLoop ctx hooks ts flags direction 1 ts.dirty_tiles with
      | .error e => (.error e, ctx.heightOf, company_terraform_limit)
      | .ok cost1 =>
        match company_terraform_limit with
        | some l =>
          if GB l 16 16 < ts.tile_to_new_height.length then
            (.error .STR_ERROR_TERRAFORM_LIMIT_REACHED, ctx.heightOf, some l)
          else if flags &&& DC_EXEC ≠ 0 then
            (.ok (cost0 + cost1), commitHeights ts.tile_to_new_height ctx.heightOf,
              some (sub32 l (ts.tile_to_new_height.length <<< 16)))
          else (.ok (cost0 + cost1), ctx.heightOf, some l)
        | none =>
          if flags &&& DC_EXEC ≠ 0 then
            (.ok (cost0 + cost1), commitHeights ts.tile_to_new_height ctx.heightOf,
              none)
          else (.ok (cost0 + cost1), ctx.heightOf, none)

/-- `TerraformTilesResult`: compound result of a terraform batch. -/
structure TerraformTilesResult where
  cost : Int
  had_success : Bool
  last_error : StringID
deriving DecidableEq, Repr

/-- Modelled from the spec: the collaborators of `TerraformTiles` — the
`DoCommand(CMD_TERRAFORM_LAND)` dispatch (command.cpp is not among the
sources), the stored heights of the world state `St`, and the polymorphic
`TileHeightSource`.  `docmdTest` is the probing call without `DC_EXEC`
(returning a cost or an error), `docmdExec` the committing call whose result
the source discards; the `Bool` is the raise/lower direction `p2`. -/
structure TerraformTilesEnv (St : Type) where
  heightOfSt : St → Nat → Int
  targetHeight : St → Nat → Int
  docmdTest : St → Nat → Bool → Except StringID Int
  docmdExec : St → Nat → Bool → St

/-- The outcome of one inner (per-corner-step) loop of `TerraformTiles`:
updated result/state/limit/money, the `_additional_cash_required` value, and
whether the loop performed the insufficient-funds early `return result`. -/
structure InnerOutcome (St : Type) where
  res : TerraformTilesResult
  st : St
  limit : Int
  money : Int
  addcash : Int
  earlyReturn : Bool

/-- The inner loop of `TerraformTiles`: step the height of tile `t` from
`curh` towards `h` one unit at a time, probing (and under `DC_EXEC`
committing) a `SLOPE_N` terraform command per step. -/
def TerraformTilesInner {St : Type} (env : TerraformTilesEnv St) (flags : Nat)
    (t : Nat) (h : Int) (st : St) (curh : Int) (limit : Int) (money : Int)
    (res : TerraformTilesResult) : InnerOutcome St :=
  if hc : curh = h then ⟨res, st, limit, money, 0, false⟩
  else
    match env.docmdTest st t (decide (¬ curh > h)) with
    | .error e =>
      ⟨{ res with last_error := e }, st,
        (if e = .STR_ERROR_TERRAFORM_LIMIT_REACHED then 0 else limit), money, 0, false⟩
    | .ok cost =>
      if flags &&& DC_EXEC ≠ 0 then
        let money2 := money - cost
        if money2 < 0 then ⟨res, st, limit, money2, cost, true⟩
        else
          let st2 := env.docmdExec st t (decide (¬ curh > h))
          TerraformTilesInner env flags t h st2
            (curh + (if curh > h then -1 else 1)) limit money2
            { res with cost := res.cost + cost, had_success := true }
      else
        if limit - 1 ≤ 0 then
          ⟨{ res with had_success := true }, st, limit - 1, money, 0, false⟩
        else
          TerraformTilesInner env flags t h st
            (curh + (if curh > h then -1 else 1)) (limit - 1) money
            { res with cost := res.cost + cost, had_success := true }
termination_by (h - curh).natAbs
decreasing_by
  all_goals
    split <;> omega

/-- The outer loop of `TerraformTiles` over the iterated tiles. -/
def TerraformTilesOuter {St : Type} (env : TerraformTilesEnv St) (flags : Nat) :
    List Nat → St → Int → Int → TerraformTilesResult → InnerOutcome St
  | [], st, limit, money, res => ⟨res, st, limit, money, 0, false⟩
  | t :: rest, st, limit, money, res =>
    if limit ≤ 0 then ⟨res, st, limit, money, 0, false⟩
    else
      let h := env.targetHeight st t
      let o := TerraformTilesInner env flags t h st (env.heightOfSt st t) limit money res
      if o.earlyReturn then o
      else TerraformTilesOuter env flags rest o.st o.limit o.money o.res

/-- The per-batch corner limit `TerraformTiles` starts from: `INT32_MAX`
without a company, else the 16-bit sub-field at bit 16 of the company's
`terraform_limit` counter. -/
def terraformTilesLimit (company_terraform_limit : Option Nat) : Int :=
  match company_terraform_limit with
  | none => 2147483647
  | some l => (GB l 16 16 : Int)

/-- `TerraformTiles(iter, height_source, flags, available_money)`: terraform
multiple tiles; the tile iterator is abstracted to the list of tiles it
yields.  Returns the result, the final world state, the
`_additional_cash_required` value and whether the insufficient-funds early
return fired. -/
def TerraformTiles {St : Type} (env : TerraformTilesEnv St) (tiles : List Nat)
    (company_terraform_limit : Option Nat) (flags : Nat)
    (available_money : Int) (st : St) :
    TerraformTilesResult × St × Int × Bool :=
  let limit := terraformTilesLimit company_terraform_limit
  let res0 : TerraformTilesResult :=
    ⟨0, false, if limit = 0 then .STR_ERROR_TERRAFORM_LIMIT_REACHED else .STR_NULL⟩
  let o := TerraformTilesOuter env flags tiles st limit available_money res0
  if o.earlyReturn then (o.res, o.st, o.addcash, true)
  else
    let res2 := if ¬ o.res.had_success ∧ o.res.last_error = .STR_NULL then
      { o.res with last_error := .STR_ERROR_ALREADY_LEVELLED }
    else o.res
    (res2, o.st, o.addcash, false)

/-- C6: every tile yielded by the diagonal iterator over a diagonal area
constructed from two valid corner tiles — the initial tile and every
non-sentinel tile after any number of `operator++` advances — satisfies
`DiagonalTileAreaT::Contains`, and its coordinates lie strictly inside the
map along both axes (out-of-bounds cells are skipped, never yielded). -/
theorem diagonal_iterator_stays_inside (m : MapT) (hm : MapOK m) (c1 c2 : Nat)
    (h1 : IsValidTileIndex m c1) (h2 : IsValidTileIndex m c2) (fuels : List Nat) :
    ∀ s ∈ diagTraj fuels (DiagIterInit (DiagonalTileAreaFromCorners m c1 c2)),
      s.tile < MapSize m →
        DiagContains (DiagonalTileAreaFromCorners m c1 c2) s.tile ∧
          TileX m s.tile < m.size_x ∧ TileY m s.tile < m.size_y := by
  have hta := diagAreaFromCorners_ok hm h1 h2
  obtain ⟨hini, hini2⟩ := diagIterInit_inv hm hta
  intro s hs hv
  obtain ⟨hinv, hyv⟩ := diagTraj_inv hm hta fuels hini hini2 s hs
  exact diag_yield_contains hm hta hinv hv (hyv hv)

/-- Witness for C6: iterating the diagonal area between tiles (1, 1) and
(2, 2) of a 4x4 map. -/
theorem diagonal_iterator_stays_inside_witness :
    MapOK ⟨4, 4⟩ ∧ IsValidTileIndex (⟨4, 4⟩ : MapT) 5 ∧
      IsValidTileIndex (⟨4, 4⟩ : MapT) 10 ∧
      ∀ s ∈ diagTraj [8, 8, 8, 8, 8]
        (DiagIterInit (DiagonalTileAreaFromCorners ⟨4, 4⟩ 5 10)),
        s.tile < MapSize ⟨4, 4⟩ →
          DiagContains (DiagonalTileAreaFromCorners ⟨4, 4⟩ 5 10) s.tile ∧
            TileX ⟨4, 4⟩ s.tile < 4 ∧ TileY ⟨4, 4⟩ s.tile < 4 :=
  ⟨by decide, by decide, by decide,
    diagonal_iterator_stays_inside ⟨4, 4⟩ (by decide) 5 10 (by decide) (by decide)
      [8, 8, 8, 8, 8]⟩

end OpenTTD

namespace OpenTTD

/-- C3: for every one of the 8 `DirTransformation` values `T`,
`CombineDirTransform T (InvertDirTransform T)` and
`CombineDirTransform (InvertDirTransform T) T` are both the identity
transformation; moreover `InvertDirTransform` fixes every reflection and maps
a pure rotation `R` to `(-R) mod 4`. -/
theorem combine_invert_dirtransform_identity :
    ∀ t : Nat, IsValidDirTransform t →
      CombineDirTransform t (InvertDirTransform t) = DTR_IDENTITY ∧
      CombineDirTransform (InvertDirTransform t) t = DTR_IDENTITY ∧
      (t &&& DTR_REFLECTION_BIT ≠ 0 → InvertDirTransform t = t) ∧
      (t &&& DTR_REFLECTION_BIT = 0 → InvertDirTransform t = (4 - t) % 4) := by
  simp only [IsValidDirTransform]
  decide

/-- Witness for C3: instantiation at the concrete rotation `DTR_ROTATE_90_R`. -/
theorem combine_invert_dirtransform_identity_witness :
    IsValidDirTransform DTR_ROTATE_90_R ∧
      CombineDirTransform DTR_ROTATE_90_R (InvertDirTransform DTR_ROTATE_90_R) =
        DTR_IDENTITY := by
  refine ⟨by decide, ?_⟩
  exact (combine_invert_dirtransform_identity DTR_ROTATE_90_R (by decide)).1

/-- C4: applying transformation `a` and then `b` to any valid 8-way direction
agrees with applying `CombineDirTransform a b` once. -/
theorem transformdir_combine :
    ∀ d : Nat, d < 8 → ∀ a : Nat, IsValidDirTransform a → ∀ b : Nat, IsValidDirTransform b →
      TransformDir (TransformDir d a) b = TransformDir d (CombineDirTransform a b) := by
  simp only [IsValidDirTransform]
  decide

/-- Witness for C4: direction `DIR_N = 0`, first rotate 90 degrees right, then
reflect across the NE-SW axis. -/
theorem transformdir_combine_witness :
    (0 : Nat) < 8 ∧ IsValidDirTransform DTR_ROTATE_90_R ∧
      IsValidDirTransform DTR_REFLECT_NE_SW ∧
      TransformDir (TransformDir 0 DTR_ROTATE_90_R) DTR_REFLECT_NE_SW =
        TransformDir 0 (CombineDirTransform DTR_ROTATE_90_R DTR_REFLECT_NE_SW) := by
  refine ⟨by decide, by decide, by decide, ?_⟩
  exact transformdir_combine 0 (by decide) DTR_ROTATE_90_R (by decide) DTR_REFLECT_NE_SW
    (by decide)

/-- C5: for areas satisfying the extent precondition and any valid
`DirTransformation`, `TransformationBetweenTileAreaCorners` returns the same
direction transformation as `TransformationBetweenTileAreas` and an offset
exactly `TransformedNorthCornerDiffC dtr` larger in both components. -/
theorem corners_transformation_adds_corner_diff
    (f t : GenericTileArea) (dtr : Nat) (hdtr : IsValidDirTransform dtr)
    (hext : AreaExtentsMatch f t dtr) :
    (TransformationBetweenTileAreaCorners f t dtr).dtr =
        (TransformationBetweenTileAreas f t dtr).dtr ∧
      (TransformationBetweenTileAreaCorners f t dtr).offset.x =
        (TransformationBetweenTileAreas f t dtr).offset.x +
          (TransformedNorthCornerDiffC dtr).x ∧
      (TransformationBetweenTileAreaCorners f t dtr).offset.y =
        (TransformationBetweenTileAreas f t dtr).offset.y +
          (TransformedNorthCornerDiffC dtr).y := by
  refine ⟨rfl, rfl, rfl⟩

/-- Witness for C5: two concrete 2x3 / 3x2 areas under a right rotation. -/
theorem corners_transformation_adds_corner_diff_witness :
    IsValidDirTransform DTR_ROTATE_90_R ∧
      AreaExtentsMatch ⟨⟨8, 8⟩, 9, 2, 3⟩ ⟨⟨8, 8⟩, 20, 3, 2⟩ DTR_ROTATE_90_R ∧
      (TransformationBetweenTileAreaCorners ⟨⟨8, 8⟩, 9, 2, 3⟩ ⟨⟨8, 8⟩, 20, 3, 2⟩
            DTR_ROTATE_90_R).offset.x =
        (TransformationBetweenTileAreas ⟨⟨8, 8⟩, 9, 2, 3⟩ ⟨⟨8, 8⟩, 20, 3, 2⟩
            DTR_ROTATE_90_R).offset.x +
          (TransformedNorthCornerDiffC DTR_ROTATE_90_R).x := by
  refine ⟨by decide, by decide, ?_⟩
  exact (corners_transformation_adds_corner_diff ⟨⟨8, 8⟩, 9, 2, 3⟩ ⟨⟨8, 8⟩, 20, 3, 2⟩
    DTR_ROTATE_90_R (by decide) (by decide)).2.1

/-- C7: `OrthogonalTileAreaT::Add` computes the minimal bounding box: adding
to an empty (invalid-tile) area yields the 1x1 area at the added tile; one
step on a well-formed area takes the componentwise minimum as the new base
and `max - min + 1` as the new extents; and for any sequence of valid tiles
folded into a well-formed area, the result contains every added tile and
every tile of the start area, while any box covering the added tiles and the
start area covers the result. -/
theorem areaAdd_minimal_bounding_box (m : MapT) (hm : MapOK m) :
    (∀ (ta : GenericTileArea) (t : Nat), ¬ IsValidTileIndex ta.map ta.tile →
      AreaAdd ta t = { map := ta.map, tile := t, w := 1, h := 1 }) ∧
    (∀ (ta : GenericTileArea) (t : Nat), AreaWF m ta → t < MapSize m →
      TileX m (AreaAdd ta t).tile = min (TileX m t) (TileX m ta.tile) ∧
      TileY m (AreaAdd ta t).tile = min (TileY m t) (TileY m ta.tile) ∧
      (AreaAdd ta t).w =
        max (TileX m t) (TileX m ta.tile + ta.w - 1) -
          min (TileX m t) (TileX m ta.tile) + 1 ∧
      (AreaAdd ta t).h =
        max (TileY m t) (TileY m ta.tile + ta.h - 1) -
          min (TileY m t) (TileY m ta.tile) + 1) ∧
    (∀ (ta : GenericTileArea) (ts : List Nat), AreaWF m ta →
      (∀ t ∈ ts, t < MapSize m) →
      (∀ t ∈ ts, AreaContains (ts.foldl AreaAdd ta) t) ∧
      (∀ u, u < MapSize m → AreaContains ta u →
        AreaContains (ts.foldl AreaAdd ta) u) ∧
      (∀ B : Box, (∀ t ∈ ts, B.containsPt (TileX m t) (TileY m t)) →
        (∀ u, u < MapSize m → AreaContains ta u →
          B.containsPt (TileX m u) (TileY m u)) →
        ∀ u, u < MapSize m → AreaContains (ts.foldl AreaAdd ta) u →
          B.containsPt (TileX m u) (TileY m u))) := by
  refine ⟨?_, ?_, ?_⟩
  · intro ta t hinv
    unfold AreaAdd
    rw [if_pos hinv]
  · intro ta t hwf ht
    obtain ⟨-, h1, h2, h3, h4⟩ := areaAdd_char hm hwf ht
    exact ⟨h1, h2, h3, h4⟩
  · intro ta ts hwf hts
    obtain ⟨-, h1, h2, h3⟩ := areaFold_po hm ts ta hwf hts
    exact ⟨h1, h2, h3⟩

/-- Witness for C7: applied on a concrete 4x4 map; in particular adding tile
10 = (2, 2) to the empty area and then to a well-formed 1x1 area at (1, 1). -/
theorem areaAdd_minimal_bounding_box_witness :
    MapOK ⟨4, 4⟩ ∧
      AreaAdd ⟨⟨4, 4⟩, INVALID_TILE_INDEX, 0, 0⟩ 10 = ⟨⟨4, 4⟩, 10, 1, 1⟩ ∧
      AreaContains (([10] : List Nat).foldl AreaAdd ⟨⟨4, 4⟩, 5, 1, 1⟩) 10 := by
  refine ⟨by decide, ?_, ?_⟩
  · exact (areaAdd_minimal_bounding_box ⟨4, 4⟩ (by decide)).1
      ⟨⟨4, 4⟩, INVALID_TILE_INDEX, 0, 0⟩ 10 (by decide)
  · exact ((areaAdd_minimal_bounding_box ⟨4, 4⟩ (by decide)).2.2
      ⟨⟨4, 4⟩, 5, 1, 1⟩ [10] (by decide) (by decide)).1 10 (by decide)

/-- Counterexample to C8 as stated: `Expand` clamps the far bounds with
`MapSizeX()` / `MapSizeY()`, whose defaulted `map` argument is the *main*
map, not the grid the area lies on.  For a 1x1 area at (5, 5) of an 8x8
auxiliary grid while the main grid is 4x4, expanding by radius 0 should (per
the claim) keep width `min(5 + 1 + 0, 8) - max(5 - 0, 0) = 1`, but the code
computes the `int` width `min(5 + 1 + 0, 4) - 5 = -1`, stored to `uint16` as
65535. -/
theorem areaExpand_own_grid_clamp_cex :
    (AreaExpand ⟨4, 4⟩ ⟨⟨8, 8⟩, 45, 1, 1⟩ 0).w = 65535 ∧
      min ((5 : Int) + 1 + 0) (8 : Int) - max ((5 : Int) - 0) 0 = 1 ∧
      (AreaExpand ⟨4, 4⟩ ⟨⟨8, 8⟩, 45, 1, 1⟩ 0).w ≠ 1 := by
  decide

/-- C8 amended: `Expand(rad)` grows the area by `rad` in each of the four
directions with each bound independently clamped to the dimensions of the
*default (main)* grid — for an area on the main grid this is the grid the
area lies on: new base `(max(x - rad, 0), max(y - rad, 0))`, far bounds
`(min(x + w + rad, main width), min(y + h + rad, main height))`. -/
theorem areaExpand_clamps_to_main (main m : MapT) (hm : MapOK m)
    (hmainx : main.size_x ≤ 32768) (hmainy : main.size_y ≤ 32768)
    (ta : GenericTileArea) (rad : Int) (hrad : 0 ≤ rad) (hwf : AreaWF m ta)
    (hx : TileX m ta.tile ≤ main.size_x) (hy : TileY m ta.tile ≤ main.size_y) :
    TileX m (AreaExpand main ta rad).tile =
        (max ((TileX m ta.tile : Int) - rad) 0).toNat ∧
      TileY m (AreaExpand main ta rad).tile =
        (max ((TileY m ta.tile : Int) - rad) 0).toNat ∧
      ((AreaExpand main ta rad).w : Int) =
        min ((TileX m ta.tile : Int) + ta.w + rad) (main.size_x : Int) -
          max ((TileX m ta.tile : Int) - rad) 0 ∧
      ((AreaExpand main ta rad).h : Int) =
        min ((TileY m ta.tile : Int) + ta.h + rad) (main.size_y : Int) -
          max ((TileY m ta.tile : Int) - rad) 0 := by
  obtain ⟨hmap, hvalid, hw1, hh1, hxb, hyb⟩ := hwf
  obtain ⟨hsx, hsy⟩ := tile_coords_lt hm hvalid
  have hW : m.size_x ≤ 32768 := hm.2.2.1
  have heval : AreaExpand main ta rad =
      { map := ta.map,
        tile := TileXY ta.map (max ((TileX ta.map ta.tile : Int) - rad) 0).toNat
          (max ((TileY ta.map ta.tile : Int) - rad) 0).toNat,
        w := wrap16 (min ((TileX ta.map ta.tile : Int) + ta.w + rad)
          (main.size_x : Int) - max ((TileX ta.map ta.tile : Int) - rad) 0),
        h := wrap16 (min ((TileY ta.map ta.tile : Int) + ta.h + rad)
          (main.size_y : Int) - max ((TileY ta.map ta.tile : Int) - rad) 0) } := rfl
  have hXv : (max ((TileX m ta.tile : Int) - rad) 0).toNat < m.size_x := by omega
  have hYv : (max ((TileY m ta.tile : Int) - rad) 0).toNat < m.size_y := by omega
  have hwnn : (0 : Int) ≤ min ((TileX m ta.tile : Int) + ta.w + rad)
      (main.size_x : Int) - max ((TileX m ta.tile : Int) - rad) 0 := by omega
  have hwlt : min ((TileX m ta.tile : Int) + ta.w + rad) (main.size_x : Int) -
      max ((TileX m ta.tile : Int) - rad) 0 < (U16 : Int) := by
    unfold U16
    omega
  have hhnn : (0 : Int) ≤ min ((TileY m ta.tile : Int) + ta.h + rad)
      (main.size_y : Int) - max ((TileY m ta.tile : Int) - rad) 0 := by omega
  have hhlt : min ((TileY m ta.tile : Int) + ta.h + rad) (main.size_y : Int) -
      max ((TileY m ta.tile : Int) - rad) 0 < (U16 : Int) := by
    unfold U16
    omega
  rw [heval, hmap]
  refine ⟨?_, ?_, ?_, ?_⟩
  · exact tileXY_x hm hXv hYv
  · exact tileXY_y hm hXv hYv
  · show (((min ((TileX m ta.tile : Int) + ta.w + rad) (main.size_x : Int) -
      max ((TileX m ta.tile : Int) - rad) 0) % (U16 : Int)).toNat : Int) = _
    rw [Int.emod_eq_of_lt hwnn hwlt, Int.toNat_of_nonneg hwnn]
  · show (((min ((TileY m ta.tile : Int) + ta.h + rad) (main.size_y : Int) -
      max ((TileY m ta.tile : Int) - rad) 0) % (U16 : Int)).toNat : Int) = _
    rw [Int.emod_eq_of_lt hhnn hhlt, Int.toNat_of_nonneg hhnn]

/-- Witness for the amended C8: a 1x1 area at (1, 1) of the main 4x4 grid
expanded by radius 5 is clamped at the grid edges on all four sides. -/
theorem areaExpand_clamps_to_main_witness :
    MapOK ⟨4, 4⟩ ∧ (0 : Int) ≤ 5 ∧ AreaWF ⟨4, 4⟩ ⟨⟨4, 4⟩, 5, 1, 1⟩ ∧
      ((AreaExpand ⟨4, 4⟩ ⟨⟨4, 4⟩, 5, 1, 1⟩ 5).w : Int) =
        min ((TileX ⟨4, 4⟩ 5 : Int) + 1 + 5) ((4 : Nat) : Int) -
          max ((TileX ⟨4, 4⟩ 5 : Int) - 5) 0 := by
  refine ⟨by decide, by decide, by decide, ?_⟩
  exact (areaExpand_clamps_to_main ⟨4, 4⟩ ⟨4, 4⟩ (by decide) (by decide) (by decide)
    ⟨⟨4, 4⟩, 5, 1, 1⟩ 5 (by decide) (by decide) (by decide) (by decide)).2.2.1

/-- Counterexample to C10 as stated: when the first per-corner step succeeds
in testing but exhausts the available money under `DC_EXEC`, `TerraformTiles`
takes the insufficient-funds early `return result;`, which bypasses the
`STR_ERROR_ALREADY_LEVELLED` fixup: the returned result has
`had_success == false` and `last_error == STR_NULL` even though a step
failed (for lack of money) and no step succeeded. -/
theorem terraformTiles_null_error_cex :
    (TerraformTiles
        (⟨fun _ _ => 0, fun _ _ => 1, fun _ _ _ => .ok 100, fun st _ _ => st⟩ :
          TerraformTilesEnv Unit)
        [0] none DC_EXEC 0 ()).1.had_success = false ∧
      (TerraformTiles
        (⟨fun _ _ => 0, fun _ _ => 1, fun _ _ _ => .ok 100, fun st _ _ => st⟩ :
          TerraformTilesEnv Unit)
        [0] none DC_EXEC 0 ()).1.last_error = StringID.STR_NULL := by
  have hinner : TerraformTilesInner
      (⟨fun _ _ => 0, fun _ _ => 1, fun _ _ _ => .ok 100, fun st _ _ => st⟩ :
        TerraformTilesEnv Unit)
      DC_EXEC 0 1 () 0 2147483647 0 ⟨0, false, .STR_NULL⟩ =
      ⟨⟨0, false, .STR_NULL⟩, (), 2147483647, -100, 100, true⟩ := by
    unfold TerraformTilesInner
    norm_num [DC_EXEC]
  constructor <;>
    simp [TerraformTiles, TerraformTilesOuter, terraformTilesLimit, hinner]

/-- C10 amended: apart from the insufficient-funds early return under
`DC_EXEC` (the path that sets `_additional_cash_required` and returns
directly), `TerraformTiles` never returns a result with
`had_success == false` and `last_error == STR_NULL`: the final fixup
replaces a null error by `STR_ERROR_ALREADY_LEVELLED`. -/
theorem terraformTiles_no_null_error {St : Type} (env : TerraformTilesEnv St)
    (tiles : List Nat) (company : Option Nat) (flags : Nat) (money : Int)
    (st : St)
    (hnoabort : (TerraformTiles env tiles company flags money st).2.2.2 = false)
    (hfail : (TerraformTiles env tiles company flags money st).1.had_success = false) :
    (TerraformTiles env tiles company flags money st).1.last_error ≠
      StringID.STR_NULL := by
  simp only [TerraformTiles] at hnoabort hfail ⊢
  set o := TerraformTilesOuter env flags tiles st (terraformTilesLimit company)
    money ⟨0, false, if terraformTilesLimit company = 0 then
      StringID.STR_ERROR_TERRAFORM_LIMIT_REACHED else StringID.STR_NULL⟩ with ho
  by_cases he : o.earlyReturn = true
  · rw [if_pos he] at hnoabort
    simp at hnoabort
  · rw [if_neg he] at hfail ⊢
    dsimp only at hfail ⊢
    by_cases hfix : ¬ o.res.had_success = true ∧
        o.res.last_error = StringID.STR_NULL
    · rw [if_pos hfix]
      intro hcontra
      simp at hcontra
    · rw [if_neg hfix] at hfail ⊢
      intro hcontra
      exact hfix ⟨by simp [hfail], hcontra⟩

/-- Witness for the amended C10: an empty batch takes no early return, has
no success, and reports `STR_ERROR_ALREADY_LEVELLED` rather than `STR_NULL`. -/
theorem terraformTiles_no_null_error_witness :
    (TerraformTiles (⟨fun _ _ => 0, fun _ _ => 0, fun _ _ _ => .ok 0,
        fun st _ _ => st⟩ : TerraformTilesEnv Unit) [] none 0 0 ()).2.2.2 = false ∧
      (TerraformTiles (⟨fun _ _ => 0, fun _ _ => 0, fun _ _ _ => .ok 0,
        fun st _ _ => st⟩ : TerraformTilesEnv Unit) [] none 0 0 ()).1.had_success = false ∧
      (TerraformTiles (⟨fun _ _ => 0, fun _ _ => 0, fun _ _ _ => .ok 0,
        fun st _ _ => st⟩ : TerraformTilesEnv Unit) [] none 0 0 ()).1.last_error ≠
        StringID.STR_NULL := by
  refine ⟨by decide, by decide, ?_⟩
  exact terraformTiles_no_null_error
    (⟨fun _ _ => 0, fun _ _ => 0, fun _ _ _ => .ok 0, fun st _ _ => st⟩ :
      TerraformTilesEnv Unit) [] none 0 0 ()
    (by decide) (by decide)

/-- C2: whenever `CmdTerraformLand` fails — a corner call, a pass-loop check
(bridge/tunnel clearance, per-tile-type hook, landscape clear) or the
terraform-limit check reports a failure — the command returns that failure
with the stored tile heights and the company counter unchanged: the commit
and the counter decrement only run in the `DC_EXEC` block after all checks
succeeded. -/
theorem cmdTerraformLand_error_leaves_state (ctx : TerraformCtx)
    (hooks : TerraformHooks) (company : Option Nat) (fuel tile flags p1 p2 : Nat)
    (e : StringID)
    (herr : (CmdTerraformLand ctx hooks company fuel tile flags p1 p2).1 = .error e) :
    (CmdTerraformLand ctx hooks company fuel tile flags p1 p2).2.1 = ctx.heightOf ∧
      (CmdTerraformLand ctx hooks company fuel tile flags p1 p2).2.2 = company := by
  unfold CmdTerraformLand at herr ⊢
  rcases h1 : terraformCornerCalls ctx fuel tile p1 p2 with e1 | ⟨ts, cost0⟩
  · exact ⟨rfl, rfl⟩
  rw [h1] at herr
  dsimp only at herr ⊢
  rcases h2 : terraformPassLoop ctx hooks ts flags (if p2 ≠ 0 then 1 else -1) 0
      ts.dirty_tiles with e2 | c1
  · exact ⟨rfl, rfl⟩
  rw [h2] at herr
  dsimp only at herr ⊢
  rcases h3 : terraformPassLoop ctx hooks ts flags (if p2 ≠ 0 then 1 else -1) 1
      ts.dirty_tiles with e3 | c2
  · exact ⟨rfl, rfl⟩
  rw [h3] at herr
  dsimp only at herr ⊢
  rcases company with - | l
  · dsimp only at herr ⊢
    by_cases hex : flags &&& DC_EXEC ≠ 0
    · rw [if_pos hex] at herr
      simp at herr
    · rw [if_neg hex] at herr ⊢
      exact ⟨rfl, rfl⟩
  · dsimp only at herr ⊢
    by_cases hGB : GB l 16 16 < ts.tile_to_new_height.length
    · rw [if_pos hGB] at herr ⊢
      exact ⟨rfl, rfl⟩
    · rw [if_neg hGB] at herr ⊢
      by_cases hex : flags &&& DC_EXEC ≠ 0
      · rw [if_pos hex] at herr
        simp at herr
      · rw [if_neg hex] at herr ⊢
        exact ⟨rfl, rfl⟩

/-- Witness for C2: a concrete failing command (raising the north corner of a
tile whose height is already at `_settings_game.construction.max_heightlevel`)
reports `STR_ERROR_TOO_HIGH` and leaves the heights of the uniformly-high
4x4 map and the absent company counter unchanged. -/
theorem cmdTerraformLand_error_leaves_state_witness :
    (CmdTerraformLand ⟨⟨4, 4⟩, fun _ => 20, 15, true, 10⟩
        ⟨fun _ => false, fun _ => false, fun _ => 0, 12, fun _ _ => false,
          fun _ => false, fun _ _ => .ok 0, fun _ _ _ _ => .ok 0⟩
        none 10 5 DC_EXEC SLOPE_N 1).1 = .error .STR_ERROR_TOO_HIGH ∧
      (CmdTerraformLand ⟨⟨4, 4⟩, fun _ => 20, 15, true, 10⟩
        ⟨fun _ => false, fun _ => false, fun _ => 0, 12, fun _ _ => false,
          fun _ => false, fun _ _ => .ok 0, fun _ _ _ _ => .ok 0⟩
        none 10 5 DC_EXEC SLOPE_N 1).2.1 6 = 20 := by
  have h1 : TerraformTileHeight ⟨⟨4, 4⟩, fun _ => 20, 15, true, 10⟩ 10 ⟨[], []⟩ 5 21 =
      .error .STR_ERROR_TOO_HIGH := by
    unfold TerraformTileHeight
    rfl
  have h2 : terraformCornerCalls ⟨⟨4, 4⟩, fun _ => 20, 15, true, 10⟩ 10 5 SLOPE_N 1 =
      (match TerraformTileHeight ⟨⟨4, 4⟩, fun _ => 20, 15, true, 10⟩ 10 ⟨[], []⟩ 5 21 with
        | .error e => .error e
        | .ok (ts2, cost) => .ok (ts2, (0 : Int) + cost)) := rfl
  have hcc : terraformCornerCalls ⟨⟨4, 4⟩, fun _ => 20, 15, true, 10⟩ 10 5 SLOPE_N 1 =
      .error .STR_ERROR_TOO_HIGH := by rw [h2, h1]
  have hres : (CmdTerraformLand ⟨⟨4, 4⟩, fun _ => 20, 15, true, 10⟩
      ⟨fun _ => false, fun _ => false, fun _ => 0, 12, fun _ _ => false,
        fun _ => false, fun _ _ => .ok 0, fun _ _ _ _ => .ok 0⟩
      none 10 5 DC_EXEC SLOPE_N 1).1 = .error .STR_ERROR_TOO_HIGH := by
    unfold CmdTerraformLand
    rw [hcc]
  refine ⟨hres, ?_⟩
  have h := cmdTerraformLand_error_leaves_state ⟨⟨4, 4⟩, fun _ => 20, 15, true, 10⟩
    ⟨fun _ => false, fun _ => false, fun _ => 0, 12, fun _ _ => false,
      fun _ => false, fun _ _ => .ok 0, fun _ _ _ _ => .ok 0⟩
    none 10 5 DC_EXEC SLOPE_N 1 .STR_ERROR_TOO_HIGH hres
  rw [h.1]

/-- C9: with the corner calls and both validation passes succeeding,
`CmdTerraformLand` under an owning company fails with the terraform-limit
error exactly when the number of corners whose height would change (the size
of `tile_to_new_height`) exceeds the 16-bit sub-field at bit 16 of the
company's `terraform_limit` counter; on execution the counter is decremented
by that corner count multiplied by `2^16` (`uint32` arithmetic, equal to the
plain difference while the count is within the budget); and `TerraformTiles`
reads the same 16-bit sub-field as its per-batch corner limit. -/
theorem terraform_limit_budget (ctx : TerraformCtx) (hooks : TerraformHooks)
    (fuel tile flags p1 p2 : Nat) (ts : TerraformerState) (cost0 c1 c2 : Int)
    (l : Nat) (hl : l < U32)
    (hcc : terraformCornerCalls ctx fuel tile p1 p2 = .ok (ts, cost0))
    (hp0 : terraformPassLoop ctx hooks ts flags (if p2 ≠ 0 then 1 else -1) 0
      ts.dirty_tiles = .ok c1)
    (hp1 : terraformPassLoop ctx hooks ts flags (if p2 ≠ 0 then 1 else -1) 1
      ts.dirty_tiles = .ok c2) :
    ((CmdTerraformLand ctx hooks (some l) fuel tile flags p1 p2).1 =
        .error .STR_ERROR_TERRAFORM_LIMIT_REACHED ↔
      GB l 16 16 < ts.tile_to_new_height.length) ∧
    (ts.tile_to_new_height.length ≤ GB l 16 16 → flags &&& DC_EXEC ≠ 0 →
      (CmdTerraformLand ctx hooks (some l) fuel tile flags p1 p2).2.2 =
          some (sub32 l (ts.tile_to_new_height.length <<< 16)) ∧
        sub32 l (ts.tile_to_new_height.length <<< 16) =
          l - ts.tile_to_new_height.length * 65536) ∧
    terraformTilesLimit (some l) = (GB l 16 16 : Int) := by
  unfold CmdTerraformLand
  rw [hcc]
  dsimp only
  rw [hp0]
  dsimp only
  rw [hp1]
  dsimp only
  refine ⟨?_, ?_, rfl⟩
  · by_cases hGB : GB l 16 16 < ts.tile_to_new_height.length
    · rw [if_pos hGB]
      simp [hGB]
    · rw [if_neg hGB]
      constructor
      · intro hcontra
        exfalso
        split_ifs at hcontra <;> simp at hcontra
      · intro hlt
        exact absurd hlt hGB
  · intro hge hex
    have hGB : ¬ GB l 16 16 < ts.tile_to_new_height.length := by omega
    rw [if_neg hGB, if_pos hex]
    refine ⟨rfl, ?_⟩
    have hsl : ts.tile_to_new_height.length <<< 16 =
        ts.tile_to_new_height.length * 65536 := by
      rw [Nat.shiftLeft_eq]
    have hsr : l >>> 16 = l / 65536 := by
      rw [Nat.shiftRight_eq_div_pow]
    have hand : GB l 16 16 ≤ l / 65536 := by
      unfold GB
      rw [hsr]
      exact Nat.and_le_left
    unfold sub32 U32
    rw [hsl]
    unfold U32 at hl
    generalize hX : GB l 16 16 = X at hge hand
    omega

/-- Witness for C9: raising the north corner of tile (1, 1) of a flat 4x4 map
changes one corner; with a company counter of `5 << 16 + 7` the 16-bit
sub-field reads 5, the command succeeds, and the counter drops by `1 << 16`. -/
theorem terraform_limit_budget_witness :
    ((CmdTerraformLand ⟨⟨4, 4⟩, fun _ => 0, 15, true, 10⟩
        ⟨fun _ => false, fun _ => false, fun _ => 0, 12, fun _ _ => false,
          fun _ => false, fun _ _ => .ok 0, fun _ _ _ _ => .ok 3⟩
        (some 327687) 10 5 DC_EXEC SLOPE_N 1).1 =
          .error .STR_ERROR_TERRAFORM_LIMIT_REACHED ↔
      GB 327687 16 16 <
        (⟨[0, 1, 4, 5], [(5, 1)]⟩ : TerraformerState).tile_to_new_height.length) ∧
    ((⟨[0, 1, 4, 5], [(5, 1)]⟩ : TerraformerState).tile_to_new_height.length ≤
        GB 327687 16 16 → DC_EXEC &&& DC_EXEC ≠ 0 →
      (CmdTerraformLand ⟨⟨4, 4⟩, fun _ => 0, 15, true, 10⟩
        ⟨fun _ => false, fun _ => false, fun _ => 0, 12, fun _ _ => false,
          fun _ => false, fun _ _ => .ok 0, fun _ _ _ _ => .ok 3⟩
        (some 327687) 10 5 DC_EXEC SLOPE_N 1).2.2 =
          some (sub32 327687
            ((⟨[0, 1, 4, 5], [(5, 1)]⟩ : TerraformerState).tile_to_new_height.length <<< 16)) ∧
        sub32 327687
            ((⟨[0, 1, 4, 5], [(5, 1)]⟩ : TerraformerState).tile_to_new_height.length <<< 16) =
          327687 -
            (⟨[0, 1, 4, 5], [(5, 1)]⟩ : TerraformerState).tile_to_new_height.length * 65536) ∧
    terraformTilesLimit (some 327687) = (GB 327687 16 16 : Int) := by
  have hT : TerraformTileHeight ⟨⟨4, 4⟩, fun _ => 0, 15, true, 10⟩ 10 ⟨[], []⟩ 5 1 =
      .ok (⟨[0, 1, 4, 5], [(5, 1)]⟩, 10) := by
    unfold TerraformTileHeight
    norm_num [TerraformGetHeightOfTile, mapFind, TerraformAddDirtyTileAround,
      TerraformAddDirtyTile, TerraformSetHeightOfTile, setInsert, mapInsert,
      TileX, TileY, TileDiffXY, wrap32, U32, MapSize, Delta, terraform_tilepos,
      TerraformTileHeightLoop]
    rfl
  have h2 : terraformCornerCalls ⟨⟨4, 4⟩, fun _ => 0, 15, true, 10⟩ 10 5 SLOPE_N 1 =
      (match TerraformTileHeight ⟨⟨4, 4⟩, fun _ => 0, 15, true, 10⟩ 10 ⟨[], []⟩ 5 1 with
        | .error e => .error e
        | .ok (ts2, cost) => .ok (ts2, (0 : Int) + cost)) := rfl
  have hcc : terraformCornerCalls ⟨⟨4, 4⟩, fun _ => 0, 15, true, 10⟩ 10 5 SLOPE_N 1 =
      .ok (⟨[0, 1, 4, 5], [(5, 1)]⟩, 10) := by
    rw [h2, hT]
    rfl
  exact terraform_limit_budget ⟨⟨4, 4⟩, fun _ => 0, 15, true, 10⟩
    ⟨fun _ => false, fun _ => false, fun _ => 0, 12, fun _ _ => false,
      fun _ => false, fun _ _ => .ok 0, fun _ _ _ _ => .ok 3⟩
    10 5 DC_EXEC SLOPE_N 1 ⟨[0, 1, 4, 5], [(5, 1)]⟩ 10 12 12 327687
    (by decide) hcc (by rfl) (by rfl)

/-! ## Corner-height invariant of the terraform recursion (claim about
`TerraformTileHeight` / `CmdTerraformLand`)

The development fixes a base height function `ctx.heightOf` (the stored
heights before the command) and the command direction `dir` (`+1` raise,
`-1` lower).  During the recursion every corner holds either its base height
or the base height moved by `dir`; moved corners, except the corner whose
neighbour loop is still running, have no orthogonal neighbour left at a base
height differing from the moved value by more than 1. -/

/-- Two tile corners are orthogonally adjacent: both indices valid and the
coordinate distance is exactly one step along one axis. -/
def orthAdjacent (m : MapT) (a b : Nat) : Prop :=
  a < MapSize m ∧ b < MapSize m ∧
    Delta (TileX m a) (TileX m b) + Delta (TileY m a) (TileY m b) = 1

instance (m : MapT) (a b : Nat) : Decidable (orthAdjacent m a b) := by
  unfold orthAdjacent
  infer_instance

/-- Two tile corners are orthogonally or diagonally adjacent (Chebyshev
distance one). -/
def cornerAdjacent (m : MapT) (a b : Nat) : Prop :=
  a < MapSize m ∧ b < MapSize m ∧
    max (Delta (TileX m a) (TileX m b)) (Delta (TileY m a) (TileY m b)) = 1

instance (m : MapT) (a b : Nat) : Decidable (cornerAdjacent m a b) := by
  unfold cornerAdjacent
  infer_instance

/-- The skip guards of the neighbour loop of `TerraformTileHeight` for a
candidate position. -/
def skipPred (m : MapT) (orig cur2 : Nat) : Prop :=
  MapSize m ≤ cur2 ∨ Delta (TileX m orig) (TileX m cur2) = m.size_x - 1 ∨
    Delta (TileY m orig) (TileY m cur2) = m.size_y - 1

/-- Corner `t` currently holds its base height moved by `dir`. -/
def Moved (ctx : TerraformCtx) (dir : Int) (ts : TerraformerState) (t : Nat) :
    Prop :=
  TerraformGetHeightOfTile ctx ts t = ctx.heightOf t + dir

/-- Every corner holds its base height or the base height moved by `dir`. -/
def MovedState (ctx : TerraformCtx) (dir : Int) (ts : TerraformerState) : Prop :=
  ∀ t, TerraformGetHeightOfTile ctx ts t = ctx.heightOf t ∨ Moved ctx dir ts t

/-- Corner `b` is no obstacle for the moved corner `c`: it has been moved
itself, or its base height is within one of `c`'s moved height. -/
def CleanPair (ctx : TerraformCtx) (dir : Int) (ts : TerraformerState)
    (c b : Nat) : Prop :=
  Moved ctx dir ts b ∨ (ctx.heightOf b - (ctx.heightOf c + dir)).natAbs ≤ 1

/-- All moved corners outside the excused set `E` have clean orthogonal
neighbourhoods. -/
def CleanExceptS (ctx : TerraformCtx) (dir : Int) (ts : TerraformerState)
    (E : Nat → Prop) : Prop :=
  ∀ c, Moved ctx dir ts c → ¬ E c →
    ∀ b, orthAdjacent ctx.map c b → CleanPair ctx dir ts c b

/-- Moved corners keep their moved height across a state transition. -/
def Persists (ctx : TerraformCtx) (dir : Int) (ts ts' : TerraformerState) :
    Prop :=
  ∀ t, Moved ctx dir ts t → Moved ctx dir ts' t

/-- The base heights satisfy the orthogonal-adjacency invariant. -/
def BaseInv (ctx : TerraformCtx) : Prop :=
  ∀ a, a < MapSize ctx.map → ∀ b, b < MapSize ctx.map →
    orthAdjacent ctx.map a b →
      (ctx.heightOf a - ctx.heightOf b).natAbs ≤ 1

instance (ctx : TerraformCtx) : Decidable (BaseInv ctx) := by
  unfold BaseInv
  infer_instance

/-- Strictly ascending keys (the `std::map` representation invariant). -/
def SortedKeys (l : List (Nat × Int)) : Prop :=
  l.Pairwise (fun p q => p.1 < q.1)

/-- The cumulative positions a run of the neighbour loop will still visit. -/
def remPositions (m : MapT) : Nat → List (Int × Int) → List Nat
  | _, [] => []
  | cur, d :: ds =>
    let cur2 := wrap32 ((cur : Int) + TileDiffXY m d.1 d.2)
    cur2 :: remPositions m cur2 ds

/-- The reachable (cursor, remaining-offsets) states of the neighbour loop
started at `orig`. -/
def StageOK (m : MapT) (orig cur : Nat) (ds : List (Int × Int)) : Prop :=
  (ds = terraform_tilepos ∧ cur = orig) ∨
    (ds = [(-2, 0), (1, 1), (0, -2)] ∧ cur = wrap32 ((orig : Int) + 1)) ∨
    (ds = [(1, 1), (0, -2)] ∧ cur = wrap32 ((orig : Int) - 1)) ∨
    (ds = [(0, -2)] ∧ cur = wrap32 ((orig : Int) + (m.size_x : Int))) ∨
    (ds = [] ∧ cur = wrap32 ((orig : Int) - (m.size_x : Int)))

section TerraformLemmas

theorem wrap32_id {n : Nat} (h : n < U32) : wrap32 (n : Int) = n := by
  unfold wrap32 U32 at *
  omega

theorem wrap32_wrap (x y : Int) :
    wrap32 ((wrap32 x : Int) + y) = wrap32 (x + y) := by
  unfold wrap32 U32
  omega

theorem mapFind_insert_self (l : List (Nat × Int)) (k : Nat) (v : Int) :
    mapFind (mapInsert l k v) k = some v := by
  induction l with
  | nil => simp [mapInsert, mapFind]
  | cons p xs ih =>
    obtain ⟨k2, v2⟩ := p
    unfold mapInsert
    split_ifs with h1 h2
    · simp [mapFind]
    · simp [mapFind]
    · unfold mapFind
      rw [if_neg (by omega)]
      exact ih

theorem mapFind_insert_ne (l : List (Nat × Int)) (k : Nat) (v : Int) {u : Nat}
    (hu : u ≠ k) : mapFind (mapInsert l k v) u = mapFind l u := by
  induction l with
  | nil => simp [mapInsert, mapFind, hu]
  | cons p xs ih =>
    obtain ⟨k2, v2⟩ := p
    unfold mapInsert
    split_ifs with h1 h2
    · simp [mapFind, hu]
    · subst h2
      simp [mapFind, hu]
    · simp [mapFind, ih]

theorem around_map_eq (ctx : TerraformCtx) (ts : TerraformerState) (t : Nat) :
    (TerraformAddDirtyTileAround ctx ts t).tile_to_new_height =
      ts.tile_to_new_height := by
  simp only [TerraformAddDirtyTileAround, TerraformAddDirtyTile]
  split_ifs <;> rfl

theorem getH_around (ctx : TerraformCtx) (ts : TerraformerState) (t u : Nat) :
    TerraformGetHeightOfTile ctx (TerraformAddDirtyTileAround ctx ts t) u =
      TerraformGetHeightOfTile ctx ts u := by
  unfold TerraformGetHeightOfTile
  rw [around_map_eq]

theorem getH_set_self (ctx : TerraformCtx) (ts : TerraformerState) (t : Nat)
    (h : Int) :
    TerraformGetHeightOfTile ctx (TerraformSetHeightOfTile ts t h) t = h := by
  unfold TerraformGetHeightOfTile TerraformSetHeightOfTile
  rw [mapFind_insert_self]

theorem getH_set_ne (ctx : TerraformCtx) (ts : TerraformerState) (t : Nat)
    (h : Int) {u : Nat} (hu : u ≠ t) :
    TerraformGetHeightOfTile ctx (TerraformSetHeightOfTile ts t h) u =
      TerraformGetHeightOfTile ctx ts u := by
  unfold TerraformGetHeightOfTile TerraformSetHeightOfTile
  rw [mapFind_insert_ne _ _ _ hu]

theorem mem_mapInsert {l : List (Nat × Int)} {k : Nat} {v : Int} {q : Nat × Int}
    (hq : q ∈ mapInsert l k v) : q.1 = k ∨ q ∈ l := by
  induction l with
  | nil =>
    simp [mapInsert] at hq
    subst hq
    exact Or.inl rfl
  | cons p xs ih =>
    obtain ⟨k2, v2⟩ := p
    unfold mapInsert at hq
    split_ifs at hq with h1 h2
    · simp only [List.mem_cons] at hq
      rcases hq with h | h | h
      · exact Or.inl (by rw [h])
      · exact Or.inr (by simp [h])
      · exact Or.inr (by simp [h])
    · simp only [List.mem_cons] at hq
      rcases hq with h | h
      · exact Or.inl (by rw [h])
      · exact Or.inr (by simp [h])
    · simp only [List.mem_cons] at hq
      rcases hq with h | h
      · exact Or.inr (by simp [h])
      · rcases ih h with h' | h'
        · exact Or.inl h'
        · exact Or.inr (by simp [h'])

theorem sortedKeys_insert {l : List (Nat × Int)} (hl : SortedKeys l) (k : Nat)
    (v : Int) : SortedKeys (mapInsert l k v) := by
  induction l with
  | nil => simp [mapInsert, SortedKeys]
  | cons p xs ih =>
    obtain ⟨k2, v2⟩ := p
    unfold SortedKeys at hl ⊢
    rw [List.pairwise_cons] at hl
    obtain ⟨hhead, htail⟩ := hl
    unfold mapInsert
    split_ifs with h1 h2
    · rw [List.pairwise_cons]
      refine ⟨?_, ?_⟩
      · intro q hq
        rcases List.mem_cons.mp hq with h | h
        · subst h
          exact h1
        · exact lt_trans h1 (hhead q h)
      · rw [List.pairwise_cons]
        exact ⟨hhead, htail⟩
    · rw [List.pairwise_cons]
      subst h2
      exact ⟨hhead, htail⟩
    · rw [List.pairwise_cons]
      refine ⟨?_, ih htail⟩
      intro q hq
      rcases mem_mapInsert hq with h | h
      · omega
      · exact hhead q h

theorem mapFind_eq_none {l : List (Nat × Int)} {t : Nat}
    (h : ∀ q ∈ l, q.1 ≠ t) : mapFind l t = none := by
  induction l with
  | nil => rfl
  | cons p xs ih =>
    obtain ⟨k2, v2⟩ := p
    unfold mapFind
    rw [if_neg ?_]
    · exact ih (fun q hq => h q (by simp [hq]))
    · have := h (k2, v2) (by simp)
      simp at this
      omega

theorem commitHeights_eq (l : List (Nat × Int)) (h0 : Nat → Int) (t : Nat)
    (hl : l.Pairwise (fun p q => p.1 ≠ q.1)) :
    commitHeights l h0 t =
      (match mapFind l t with | some v => v | none => h0 t) := by
  induction l generalizing h0 with
  | nil => rfl
  | cons p xs ih =>
    obtain ⟨k, v⟩ := p
    rw [List.pairwise_cons] at hl
    obtain ⟨hhead, htail⟩ := hl
    unfold commitHeights mapFind
    rw [ih _ htail]
    by_cases ht : t = k
    · subst ht
      rw [if_pos rfl]
      have hnone : mapFind xs t = none :=
        mapFind_eq_none (fun q hq => (hhead q hq).symm)
      rw [hnone]
      simp
    · rw [if_neg ht]
      rcases hfind : mapFind xs t with - | w
      · rw [if_neg ht]
      · rw [if_neg ht]

end TerraformLemmas

section TerraformGeometry

variable {m : MapT}

theorem tile_eq_coords (t : Nat) (m : MapT) :
    t = TileY m t * m.size_x + TileX m t := by
  unfold TileX TileY
  have h := Nat.div_add_mod t m.size_x
  rw [Nat.mul_comm] at h
  omega

theorem mapOK_size_le (hm : MapOK m) : MapSize m ≤ 1073741824 := by
  have h := Nat.mul_le_mul hm.2.2.1 hm.2.2.2
  unfold MapSize
  omega

theorem coords_right (hm : MapOK m) {t : Nat} (ht : t < MapSize m)
    (hx : TileX m t + 1 < m.size_x) :
    t + 1 < MapSize m ∧ TileX m (t + 1) = TileX m t + 1 ∧
      TileY m (t + 1) = TileY m t := by
  obtain ⟨hxlt, hylt⟩ := tile_coords_lt hm ht
  have hteq := tile_eq_coords t m
  have hxy : TileXY m (TileX m t + 1) (TileY m t) = t + 1 := by
    unfold TileXY
    rw [Nat.mod_eq_of_lt (tileXY_lt_u32 hm hx hylt)]
    omega
  refine ⟨?_, ?_, ?_⟩
  · have h := tileXY_valid hm hx hylt
    unfold IsValidTileIndex at h
    rw [hxy] at h
    exact h
  · have h := tileXY_x hm hx hylt
    rw [hxy] at h
    exact h
  · have h := tileXY_y hm hx hylt
    rw [hxy] at h
    exact h

theorem coords_left (hm : MapOK m) {t : Nat} (ht : t < MapSize m)
    (hx : 1 ≤ TileX m t) :
    1 ≤ t ∧ t - 1 < MapSize m ∧ TileX m (t - 1) = TileX m t - 1 ∧
      TileY m (t - 1) = TileY m t := by
  obtain ⟨hxlt, hylt⟩ := tile_coords_lt hm ht
  have hteq := tile_eq_coords t m
  have hx1 : TileX m t - 1 < m.size_x := by omega
  have hxy : TileXY m (TileX m t - 1) (TileY m t) = t - 1 := by
    unfold TileXY
    rw [Nat.mod_eq_of_lt (tileXY_lt_u32 hm hx1 hylt)]
    omega
  refine ⟨by omega, ?_, ?_, ?_⟩
  · have h := tileXY_valid hm hx1 hylt
    unfold IsValidTileIndex at h
    rw [hxy] at h
    exact h
  · have h := tileXY_x hm hx1 hylt
    rw [hxy] at h
    exact h
  · have h := tileXY_y hm hx1 hylt
    rw [hxy] at h
    exact h

theorem coords_down (hm : MapOK m) {t : Nat} (ht : t < MapSize m)
    (hy : TileY m t + 1 < m.size_y) :
    t + m.size_x < MapSize m ∧ TileX m (t + m.size_x) = TileX m t ∧
      TileY m (t + m.size_x) = TileY m t + 1 := by
  obtain ⟨hxlt, hylt⟩ := tile_coords_lt hm ht
  have hteq := tile_eq_coords t m
  have hxy : TileXY m (TileX m t) (TileY m t + 1) = t + m.size_x := by
    unfold TileXY
    rw [Nat.mod_eq_of_lt (tileXY_lt_u32 hm hxlt hy)]
    ring_nf
    omega
  refine ⟨?_, ?_, ?_⟩
  · have h := tileXY_valid hm hxlt hy
    unfold IsValidTileIndex at h
    rw [hxy] at h
    exact h
  · have h := tileXY_x hm hxlt hy
    rw [hxy] at h
    exact h
  · have h := tileXY_y hm hxlt hy
    rw [hxy] at h
    exact h

theorem coords_up (hm : MapOK m) {t : Nat} (ht : t < MapSize m)
    (hy : 1 ≤ TileY m t) :
    m.size_x ≤ t ∧ t - m.size_x < MapSize m ∧
      TileX m (t - m.size_x) = TileX m t ∧
      TileY m (t - m.size_x) = TileY m t - 1 := by
  obtain ⟨hxlt, hylt⟩ := tile_coords_lt hm ht
  have hteq := tile_eq_coords t m
  have hy1 : TileY m t - 1 < m.size_y := by omega
  have hxy : TileXY m (TileX m t) (TileY m t - 1) = t - m.size_x := by
    unfold TileXY
    rw [Nat.mod_eq_of_lt (tileXY_lt_u32 hm hxlt hy1)]
    have : (TileY m t - 1) * m.size_x + m.size_x = TileY m t * m.size_x := by
      have h1 : TileY m t - 1 + 1 = TileY m t := by omega
      calc (TileY m t - 1) * m.size_x + m.size_x
          = (TileY m t - 1 + 1) * m.size_x := by ring
        _ = TileY m t * m.size_x := by rw [h1]
    omega
  refine ⟨by nlinarith [hteq, hy], ?_, ?_, ?_⟩
  · have h := tileXY_valid hm hxlt hy1
    unfold IsValidTileIndex at h
    rw [hxy] at h
    exact h
  · have h := tileXY_x hm hxlt hy1
    rw [hxy] at h
    exact h
  · have h := tileXY_y hm hxlt hy1
    rw [hxy] at h
    exact h

end TerraformGeometry

section TerraformGeometry2

variable {m : MapT}

theorem posE_dich (hm : MapOK m) {t : Nat} (ht : t < MapSize m) :
    skipPred m t (wrap32 ((t : Int) + 1)) ∨
      orthAdjacent m t (wrap32 ((t : Int) + 1)) := by
  have hu : MapSize m < U32 := mapOK_size_lt hm
  have hwr : wrap32 ((t : Int) + 1) = t + 1 := by
    unfold wrap32 U32 at *
    omega
  rw [hwr]
  obtain ⟨hxlt, hylt⟩ := tile_coords_lt hm ht
  by_cases hx : TileX m t + 1 < m.size_x
  · obtain ⟨hv, hcx, hcy⟩ := coords_right hm ht hx
    right
    refine ⟨ht, hv, ?_⟩
    rw [hcx, hcy]
    unfold Delta
    split_ifs <;> omega
  · -- x = size_x - 1 : the position wraps to the next row (or off the map)
    have hteq := tile_eq_coords t m
    by_cases hyl : TileY m t + 1 < m.size_y
    · left
      right
      left
      have hxy : TileXY m 0 (TileY m t + 1) = t + 1 := by
        unfold TileXY
        rw [Nat.mod_eq_of_lt (tileXY_lt_u32 hm (by omega) hyl)]
        ring_nf
        omega
      have h0 := tileXY_x hm (show 0 < m.size_x by omega) hyl
      rw [hxy] at h0
      rw [h0]
      unfold Delta
      split_ifs <;> omega
    · left
      left
      have : MapSize m ≤ t + 1 := by
        unfold MapSize
        nlinarith [hteq]
      omega

theorem posW_dich (hm : MapOK m) {t : Nat} (ht : t < MapSize m) :
    skipPred m t (wrap32 ((t : Int) - 1)) ∨
      orthAdjacent m t (wrap32 ((t : Int) - 1)) := by
  have hu : MapSize m < U32 := mapOK_size_lt hm
  by_cases ht0 : 1 ≤ t
  · have hwr : wrap32 ((t : Int) - 1) = t - 1 := by
      unfold wrap32 U32 at *
      omega
    rw [hwr]
    by_cases hx : 1 ≤ TileX m t
    · obtain ⟨-, hv, hcx, hcy⟩ := coords_left hm ht hx
      right
      refine ⟨ht, hv, ?_⟩
      rw [hcx, hcy]
      unfold Delta
      split_ifs <;> omega
    · -- x = 0 : the previous index is the last cell of the previous row
      have hteq := tile_eq_coords t m
      obtain ⟨hxlt, hylt⟩ := tile_coords_lt hm ht
      have hy1 : 1 ≤ TileY m t := by
        by_contra hcon
        have hy0 : TileY m t = 0 := by omega
        have hx0 : TileX m t = 0 := by omega
        rw [hy0, hx0] at hteq
        simp at hteq
        omega
      have hy1' : TileY m t - 1 < m.size_y := by omega
      have hx1' : m.size_x - 1 < m.size_x := by omega
      have hxy : TileXY m (m.size_x - 1) (TileY m t - 1) = t - 1 := by
        unfold TileXY
        rw [Nat.mod_eq_of_lt (tileXY_lt_u32 hm hx1' hy1')]
        have : (TileY m t - 1) * m.size_x + m.size_x = TileY m t * m.size_x := by
          have h1 : TileY m t - 1 + 1 = TileY m t := by omega
          calc (TileY m t - 1) * m.size_x + m.size_x
              = (TileY m t - 1 + 1) * m.size_x := by ring
            _ = TileY m t * m.size_x := by rw [h1]
        omega
      left
      right
      left
      have h0 := tileXY_x hm hx1' hy1'
      rw [hxy] at h0
      rw [h0]
      unfold Delta
      split_ifs <;> omega
  · -- t = 0 : the decrement wraps around the uint32 range
    have ht0' : t = 0 := by omega
    subst ht0'
    left
    left
    have hle := mapOK_size_le hm
    unfold wrap32 U32 at *
    omega

theorem posS_dich (hm : MapOK m) {t : Nat} (ht : t < MapSize m) :
    skipPred m t (wrap32 ((t : Int) + (m.size_x : Int))) ∨
      orthAdjacent m t (wrap32 ((t : Int) + (m.size_x : Int))) := by
  have hu : MapSize m < U32 := mapOK_size_lt hm
  have hW : m.size_x ≤ 32768 := hm.2.2.1
  have hwr : wrap32 ((t : Int) + (m.size_x : Int)) = t + m.size_x := by
    have hle := mapOK_size_le hm
    unfold wrap32 U32 at *
    omega
  rw [hwr]
  by_cases hy : TileY m t + 1 < m.size_y
  · obtain ⟨hv, hcx, hcy⟩ := coords_down hm ht hy
    right
    refine ⟨ht, hv, ?_⟩
    rw [hcx, hcy]
    unfold Delta
    split_ifs <;> omega
  · left
    left
    have hteq := tile_eq_coords t m
    obtain ⟨hxlt, hylt⟩ := tile_coords_lt hm ht
    unfold MapSize
    nlinarith [hteq]

theorem posN_dich (hm : MapOK m) {t : Nat} (ht : t < MapSize m) :
    skipPred m t (wrap32 ((t : Int) - (m.size_x : Int))) ∨
      orthAdjacent m t (wrap32 ((t : Int) - (m.size_x : Int))) := by
  have hu : MapSize m < U32 := mapOK_size_lt hm
  have hW : m.size_x ≤ 32768 := hm.2.2.1
  have hW0 : 3 ≤ m.size_x := hm.1
  by_cases hy : 1 ≤ TileY m t
  · obtain ⟨hge, hv, hcx, hcy⟩ := coords_up hm ht hy
    have hwr : wrap32 ((t : Int) - (m.size_x : Int)) = t - m.size_x := by
      unfold wrap32 U32 at *
      omega
    rw [hwr]
    right
    refine ⟨ht, hv, ?_⟩
    rw [hcx, hcy]
    unfold Delta
    split_ifs <;> omega
  · -- y = 0 : the subtraction wraps around the uint32 range
    left
    left
    have hteq := tile_eq_coords t m
    have hy0 : TileY m t = 0 := by omega
    have htW : t < m.size_x := by
      rw [hy0] at hteq
      obtain ⟨hxlt, -⟩ := tile_coords_lt hm ht
      omega
    have hle := mapOK_size_le hm
    unfold wrap32 U32 at *
    omega

theorem adj_not_skip (hm : MapOK m) {t b : Nat} (hadj : orthAdjacent m t b) :
    ¬ skipPred m t b := by
  obtain ⟨ht, hb, hsum⟩ := hadj
  have h3x : 3 ≤ m.size_x := hm.1
  have h3y : 3 ≤ m.size_y := hm.2.1
  unfold skipPred
  push_neg
  refine ⟨by omega, by omega, by omega⟩

theorem wrap32_add_one {t : Nat} (h : t + 1 < U32) :
    wrap32 ((t : Int) + 1) = t + 1 := by
  unfold wrap32 U32 at *
  omega

theorem wrap32_sub_one {t : Nat} (h0 : 1 ≤ t) (h : t < U32) :
    wrap32 ((t : Int) - 1) = t - 1 := by
  unfold wrap32 U32 at *
  omega

theorem wrap32_add_w {t w : Nat} (h : t + w < U32) :
    wrap32 ((t : Int) + (w : Int)) = t + w := by
  unfold wrap32 U32 at *
  omega

theorem wrap32_sub_w {t w : Nat} (h0 : w ≤ t) (h : t < U32) :
    wrap32 ((t : Int) - (w : Int)) = t - w := by
  unfold wrap32 U32 at *
  omega

theorem adj_mem_positions (hm : MapOK m) {t b : Nat}
    (hadj : orthAdjacent m t b) :
    b = wrap32 ((t : Int) + 1) ∨ b = wrap32 ((t : Int) - 1) ∨
      b = wrap32 ((t : Int) + (m.size_x : Int)) ∨
      b = wrap32 ((t : Int) - (m.size_x : Int)) := by
  obtain ⟨ht, hb, hsum⟩ := hadj
  have hu : MapSize m < U32 := mapOK_size_lt hm
  have hu' : MapSize m < 4294967296 := by
    unfold U32 at hu
    omega
  have hteq := tile_eq_coords t m
  have hbeq := tile_eq_coords b m
  unfold Delta at hsum
  split_ifs at hsum with h1 h2 h2
  · exfalso
    omega
  · -- east neighbour: x grows by one, same row
    left
    have hx : TileX m b = TileX m t + 1 := by omega
    have hy : TileY m b = TileY m t := by omega
    rw [hx, hy] at hbeq
    have hbt : b = t + 1 := by omega
    rw [hbt, wrap32_add_one (by unfold U32; omega)]
  · -- south neighbour: same column, y grows by one
    right
    right
    left
    have hx : TileX m b = TileX m t := by omega
    have hy : TileY m b = TileY m t + 1 := by omega
    rw [hx, hy] at hbeq
    have hexp : (TileY m t + 1) * m.size_x = TileY m t * m.size_x + m.size_x := by
      ring
    have hbt : b = t + m.size_x := by omega
    rw [hbt, wrap32_add_w (by unfold U32; omega)]
  · by_cases hxeq : TileX m t = TileX m b
    · -- north neighbour: same column, y shrinks by one
      right
      right
      right
      have hy : TileY m t = TileY m b + 1 := by omega
      have hbeq' : b = TileY m b * m.size_x + TileX m t := by
        rw [hxeq]
        exact hbeq
      rw [hy] at hteq
      have hexp : (TileY m b + 1) * m.size_x = TileY m b * m.size_x + m.size_x := by
        ring
      have hbt : b + m.size_x = t := by omega
      rw [wrap32_sub_w (by omega) (by unfold U32; omega)]
      omega
    · -- west neighbour: x shrinks by one, same row
      right
      left
      have hx : TileX m t = TileX m b + 1 := by omega
      have hy2 : TileY m t = TileY m b := by omega
      rw [hx, hy2] at hteq
      have hbt : b + 1 = t := by omega
      rw [wrap32_sub_one (by omega) (by unfold U32; omega)]
      omega

end TerraformGeometry2

section TerraformStages

variable {m : MapT}

theorem tileDiff_vals (m : MapT) :
    TileDiffXY m 1 0 = 1 ∧ TileDiffXY m (-2) 0 = -2 ∧
      TileDiffXY m 1 1 = (m.size_x : Int) + 1 ∧
      TileDiffXY m 0 (-2) = -2 * (m.size_x : Int) := by
  unfold TileDiffXY
  refine ⟨by ring, by ring, by ring, by ring⟩

theorem remPositions_top (m : MapT) (t : Nat) :
    remPositions m t terraform_tilepos =
      [wrap32 ((t : Int) + 1), wrap32 ((t : Int) - 1),
        wrap32 ((t : Int) + (m.size_x : Int)),
        wrap32 ((t : Int) - (m.size_x : Int))] := by
  obtain ⟨d1, d2, d3, d4⟩ := tileDiff_vals m
  simp only [terraform_tilepos, remPositions, d1, d2, d3, d4, wrap32_wrap]
  have h2 : wrap32 ((t : Int) + 1 + -2) = wrap32 ((t : Int) - 1) := by
    congr 1
    ring
  have h3 : wrap32 ((t : Int) + 1 + -2 + ((m.size_x : Int) + 1)) =
      wrap32 ((t : Int) + (m.size_x : Int)) := by
    congr 1
    ring
  have h4 : wrap32 ((t : Int) + 1 + -2 + ((m.size_x : Int) + 1) +
      -2 * (m.size_x : Int)) = wrap32 ((t : Int) - (m.size_x : Int)) := by
    congr 1
    ring
  rw [h2, h3, h4]

theorem stage_next (orig cur : Nat) (d : Int × Int) (ds : List (Int × Int))
    (h : StageOK m orig cur (d :: ds)) :
    StageOK m orig (wrap32 ((cur : Int) + TileDiffXY m d.1 d.2)) ds ∧
      (wrap32 ((cur : Int) + TileDiffXY m d.1 d.2) = wrap32 ((orig : Int) + 1) ∨
        wrap32 ((cur : Int) + TileDiffXY m d.1 d.2) = wrap32 ((orig : Int) - 1) ∨
        wrap32 ((cur : Int) + TileDiffXY m d.1 d.2) =
          wrap32 ((orig : Int) + (m.size_x : Int)) ∨
        wrap32 ((cur : Int) + TileDiffXY m d.1 d.2) =
          wrap32 ((orig : Int) - (m.size_x : Int))) := by
  obtain ⟨e1, e2, e3, e4⟩ := tileDiff_vals m
  unfold StageOK at h
  rcases h with ⟨hds, hcur⟩ | ⟨hds, hcur⟩ | ⟨hds, hcur⟩ | ⟨hds, hcur⟩ | ⟨hds, hcur⟩
  · unfold terraform_tilepos at hds
    have hd : d = (1, 0) ∧ ds = [(-2, 0), (1, 1), (0, -2)] := by
      constructor <;> simp_all
    obtain ⟨hd1, hd2⟩ := hd
    subst hd1
    subst hcur
    refine ⟨Or.inr (Or.inl ⟨hd2, by rw [e1]⟩), Or.inl (by rw [e1])⟩
  · have hd : d = (-2, 0) ∧ ds = [(1, 1), (0, -2)] := by
      constructor <;> simp_all
    obtain ⟨hd1, hd2⟩ := hd
    subst hd1
    subst hcur
    have hp : wrap32 ((wrap32 ((orig : Int) + 1) : Int) + TileDiffXY m (-2) 0) =
        wrap32 ((orig : Int) - 1) := by
      rw [e2, wrap32_wrap]
      congr 1
      ring
    refine ⟨Or.inr (Or.inr (Or.inl ⟨hd2, hp⟩)), Or.inr (Or.inl hp)⟩
  · have hd : d = (1, 1) ∧ ds = [(0, -2)] := by
      constructor <;> simp_all
    obtain ⟨hd1, hd2⟩ := hd
    subst hd1
    subst hcur
    have hp : wrap32 ((wrap32 ((orig : Int) - 1) : Int) + TileDiffXY m 1 1) =
        wrap32 ((orig : Int) + (m.size_x : Int)) := by
      rw [e3, wrap32_wrap]
      congr 1
      ring
    refine ⟨Or.inr (Or.inr (Or.inr (Or.inl ⟨hd2, hp⟩))), Or.inr (Or.inr (Or.inl hp))⟩
  · have hd : d = (0, -2) ∧ ds = [] := by
      constructor <;> simp_all
    obtain ⟨hd1, hd2⟩ := hd
    subst hd1
    subst hcur
    have hp : wrap32 ((wrap32 ((orig : Int) + (m.size_x : Int)) : Int) +
        TileDiffXY m 0 (-2)) = wrap32 ((orig : Int) - (m.size_x : Int)) := by
      rw [e4, wrap32_wrap]
      congr 1
      ring
    refine ⟨Or.inr (Or.inr (Or.inr (Or.inr ⟨hd2, hp⟩))),
      Or.inr (Or.inr (Or.inr hp))⟩
  · simp at hds

theorem pos_dich (hm : MapOK m) {t p : Nat} (ht : t < MapSize m)
    (hp : p = wrap32 ((t : Int) + 1) ∨ p = wrap32 ((t : Int) - 1) ∨
      p = wrap32 ((t : Int) + (m.size_x : Int)) ∨
      p = wrap32 ((t : Int) - (m.size_x : Int))) :
    skipPred m t p ∨ orthAdjacent m t p := by
  rcases hp with h | h | h | h
  · rw [h]
    exact posE_dich hm ht
  · rw [h]
    exact posW_dich hm ht
  · rw [h]
    exact posS_dich hm ht
  · rw [h]
    exact posN_dich hm ht

end TerraformStages

section TerraformInvariant

variable {ctx : TerraformCtx} {dir : Int}

theorem persists_refl (ts : TerraformerState) : Persists ctx dir ts ts :=
  fun _ h => h

theorem persists_trans {ts1 ts2 ts3 : TerraformerState}
    (h1 : Persists ctx dir ts1 ts2) (h2 : Persists ctx dir ts2 ts3) :
    Persists ctx dir ts1 ts3 :=
  fun t h => h2 t (h1 t h)

theorem clean_persist {ts ts' : TerraformerState}
    (hp : Persists ctx dir ts ts') {c b : Nat}
    (hc : CleanPair ctx dir ts c b) : CleanPair ctx dir ts' c b := by
  rcases hc with h | h
  · exact Or.inl (hp b h)
  · exact Or.inr h

theorem set_getH (ctx : TerraformCtx) (ts : TerraformerState) (tile : Nat)
    (h : Int) (u : Nat) :
    TerraformGetHeightOfTile ctx
        (TerraformSetHeightOfTile (TerraformAddDirtyTileAround ctx ts tile)
          tile h) u =
      (if u = tile then h else TerraformGetHeightOfTile ctx ts u) := by
  by_cases hu : u = tile
  · subst hu
    rw [if_pos rfl]
    exact getH_set_self ctx _ u h
  · rw [if_neg hu]
    rw [getH_set_ne ctx _ _ _ hu]
    exact getH_around ctx ts tile u

/-- The guarantee of one `TerraformTileHeight` call: state invariants are
preserved, the target corner has moved, and every moved corner outside the
excused set has a clean neighbourhood. -/
def TTHstmt (ctx : TerraformCtx) (dir : Int) (fuel : Nat) : Prop :=
  ∀ (E : Nat → Prop) (ts : TerraformerState) (tile : Nat) (height : Int)
    (ts' : TerraformerState) (cost : Int),
    SortedKeys ts.tile_to_new_height →
    MovedState ctx dir ts →
    CleanExceptS ctx dir ts E →
    tile < MapSize ctx.map →
    height = ctx.heightOf tile + dir →
    TerraformTileHeight ctx fuel ts tile height = .ok (ts', cost) →
    SortedKeys ts'.tile_to_new_height ∧ MovedState ctx dir ts' ∧
      Persists ctx dir ts ts' ∧ Moved ctx dir ts' tile ∧
      CleanExceptS ctx dir ts' E ∧
      (∀ b, orthAdjacent ctx.map tile b → CleanPair ctx dir ts' tile b)

end TerraformInvariant

/-- Induction through one run of the neighbour loop of
`TerraformTileHeight`. -/
theorem loop_aux (ctx : TerraformCtx) (dir : Int) (fuel : Nat)
    (hT : TTHstmt ctx dir fuel)
    (hm : MapOK ctx.map) (hdir : dir = 1 ∨ dir = -1) (hinv : BaseInv ctx)
    (E : Nat → Prop) (orig : Nat) (height : Int)
    (horig : orig < MapSize ctx.map)
    (hh : height = ctx.heightOf orig + dir) :
    ∀ (ds : List (Int × Int)) (cur : Nat) (ts : TerraformerState) (acc : Int)
      (ts' : TerraformerState) (cost : Int),
      SortedKeys ts.tile_to_new_height →
      MovedState ctx dir ts →
      CleanExceptS ctx dir ts (fun c => E c ∨ c = orig) →
      Moved ctx dir ts orig →
      StageOK ctx.map orig cur ds →
      (∀ b, orthAdjacent ctx.map orig b →
        b ∈ remPositions ctx.map cur ds ∨ CleanPair ctx dir ts orig b) →
      TerraformTileHeightLoop ctx fuel ts orig height cur ds acc = .ok (ts', cost) →
      SortedKeys ts'.tile_to_new_height ∧ MovedState ctx dir ts' ∧
        Persists ctx dir ts ts' ∧
        CleanExceptS ctx dir ts' (fun c => E c ∨ c = orig) ∧
        (∀ b, orthAdjacent ctx.map orig b → CleanPair ctx dir ts' orig b) := by
  intro ds
  induction ds with
  | nil =>
    intro cur ts acc ts' cost hsk hms hce hmov hstage hcov hrun
    unfold TerraformTileHeightLoop at hrun
    simp only [Except.ok.injEq, Prod.mk.injEq] at hrun
    obtain ⟨h1, -⟩ := hrun
    subst h1
    refine ⟨hsk, hms, persists_refl ts, hce, ?_⟩
    intro b hb
    rcases hcov b hb with hmem | hcl
    · simp [remPositions] at hmem
    · exact hcl
  | cons d ds ih =>
    intro cur ts acc ts' cost hsk hms hce hmov hstage hcov hrun
    obtain ⟨hstage', hpos⟩ := stage_next orig cur d ds hstage
    unfold TerraformTileHeightLoop at hrun
    dsimp only at hrun
    set p := wrap32 ((cur : Int) + TileDiffXY ctx.map d.1 d.2) with hpdef
    have hdich := pos_dich hm horig hpos
    have hmemrem : remPositions ctx.map cur (d :: ds) =
        p :: remPositions ctx.map p ds := by
      simp only [remPositions]
    split_ifs at hrun with hg1 hg2 hg3 hgd
    · -- skipped: off the map
      refine ih p ts acc ts' cost hsk hms hce hmov hstage' ?_ hrun
      intro b hb
      rcases hcov b hb with hmem | hcl
      · rw [hmemrem] at hmem
        rcases List.mem_cons.mp hmem with hbp | hmem'
        · exfalso
          subst hbp
          exact adj_not_skip hm hb (Or.inl hg1)
        · exact Or.inl hmem'
      · exact Or.inr hcl
    · -- skipped: wrap in x
      refine ih p ts acc ts' cost hsk hms hce hmov hstage' ?_ hrun
      intro b hb
      rcases hcov b hb with hmem | hcl
      · rw [hmemrem] at hmem
        rcases List.mem_cons.mp hmem with hbp | hmem'
        · exfalso
          subst hbp
          exact adj_not_skip hm hb (Or.inr (Or.inl hg2))
        · exact Or.inl hmem'
      · exact Or.inr hcl
    · -- skipped: wrap in y
      refine ih p ts acc ts' cost hsk hms hce hmov hstage' ?_ hrun
      intro b hb
      rcases hcov b hb with hmem | hcl
      · rw [hmemrem] at hmem
        rcases List.mem_cons.mp hmem with hbp | hmem'
        · exfalso
          subst hbp
          exact adj_not_skip hm hb (Or.inr (Or.inr hg3))
        · exact Or.inl hmem'
      · exact Or.inr hcl
    · -- processed with recursion: the neighbour differs by more than one
      have hadj : orthAdjacent ctx.map orig p := by
        rcases hdich with hskip | hadj
        · exfalso
          unfold skipPred at hskip
          rcases hskip with h | h | h
          · exact hg1 h
          · exact hg2 h
          · exact hg3 h
        · exact hadj
      have hpv : p < MapSize ctx.map := hadj.2.1
      have hinvp := hinv orig horig p hpv hadj
      have hbase : TerraformGetHeightOfTile ctx ts p = ctx.heightOf p := by
        rcases hms p with hb | hmv
        · exact hb
        · exfalso
          unfold Moved at hmv
          rw [hmv, hh] at hgd
          have : (ctx.heightOf orig + dir - (ctx.heightOf p + dir)).natAbs =
              (ctx.heightOf orig - ctx.heightOf p).natAbs := by
            congr 1
            ring
          rw [this] at hgd
          omega
      have hret : retargetHeight (TerraformGetHeightOfTile ctx ts p) height =
          ctx.heightOf p + dir := by
        rw [hbase, hh]
        unfold retargetHeight
        rw [hbase, hh] at hgd
        rcases hdir with h1 | h1 <;> subst h1 <;> split_ifs <;> omega
      rcases hres : TerraformTileHeight ctx fuel ts p
          (retargetHeight (TerraformGetHeightOfTile ctx ts p) height)
          with e | ⟨ts2, c2⟩
      · rw [hres] at hrun
        simp at hrun
      · rw [hres] at hrun
        obtain ⟨hsk2, hms2, hp2, hmov2, hce2, hclean2⟩ :=
          hT (fun c => E c ∨ c = orig) ts p _ ts2 c2 hsk hms hce hpv hret hres
        have hcov2 : ∀ b, orthAdjacent ctx.map orig b →
            b ∈ remPositions ctx.map p ds ∨ CleanPair ctx dir ts2 orig b := by
          intro b hb
          rcases hcov b hb with hmem | hcl
          · rw [hmemrem] at hmem
            rcases List.mem_cons.mp hmem with hbp | hmem'
            · subst hbp
              exact Or.inr (Or.inl hmov2)
            · exact Or.inl hmem'
          · exact Or.inr (clean_persist hp2 hcl)
        obtain ⟨hsk3, hms3, hp3, hce3, hcl3⟩ :=
          ih p ts2 (acc + c2) ts' cost hsk2 hms2 hce2 (hp2 orig hmov)
            hstage' hcov2 hrun
        exact ⟨hsk3, hms3, persists_trans hp2 hp3, hce3, hcl3⟩
    · -- processed without recursion: already within one step
      have hadj : orthAdjacent ctx.map orig p := by
        rcases hdich with hskip | hadj
        · exfalso
          unfold skipPred at hskip
          rcases hskip with h | h | h
          · exact hg1 h
          · exact hg2 h
          · exact hg3 h
        · exact hadj
      refine ih p ts acc ts' cost hsk hms hce hmov hstage' ?_ hrun
      intro b hb
      rcases hcov b hb with hmem | hcl
      · rw [hmemrem] at hmem
        rcases List.mem_cons.mp hmem with hbp | hmem'
        · subst hbp
          rcases hms p with hbb | hmv
          · right
            right
            rw [hbb, hh] at hgd
            omega
          · exact Or.inr (Or.inl hmv)
        · exact Or.inl hmem'
      · exact Or.inr hcl

/-- The per-call guarantee of `TerraformTileHeight` holds for every fuel. -/
theorem tth_stmt_holds (ctx : TerraformCtx) (dir : Int) (hm : MapOK ctx.map)
    (hdir : dir = 1 ∨ dir = -1) (hinv : BaseInv ctx) :
    ∀ fuel, TTHstmt ctx dir fuel := by
  intro fuel
  induction fuel with
  | zero =>
    intro E ts tile height ts' cost hsk hms hce htile hh hrun
    unfold TerraformTileHeight at hrun
    simp at hrun
  | succ fuel ih =>
    intro E ts tile height ts' cost hsk hms hce htile hh hrun
    unfold TerraformTileHeight at hrun
    dsimp only at hrun
    split_ifs at hrun with h1 h2 h3 h4
    · set ts2 := TerraformSetHeightOfTile (TerraformAddDirtyTileAround ctx ts tile)
        tile height with hts2
      have hg : ∀ u, TerraformGetHeightOfTile ctx ts2 u =
          (if u = tile then height else TerraformGetHeightOfTile ctx ts u) :=
        set_getH ctx ts tile height
      have hsk2 : SortedKeys ts2.tile_to_new_height := by
        show SortedKeys (mapInsert
          (TerraformAddDirtyTileAround ctx ts tile).tile_to_new_height tile height)
        rw [around_map_eq]
        exact sortedKeys_insert hsk tile height
      have hpers : Persists ctx dir ts ts2 := by
        intro u hu
        unfold Moved at hu ⊢
        rw [hg u]
        by_cases hut : u = tile
        · rw [if_pos hut, hut] at *
          rw [hh]
        · rw [if_neg hut]
          exact hu
      have hmov2 : Moved ctx dir ts2 tile := by
        unfold Moved
        rw [hg tile, if_pos rfl]
        exact hh
      have hms2 : MovedState ctx dir ts2 := by
        intro u
        by_cases hut : u = tile
        · subst hut
          exact Or.inr hmov2
        · rcases hms u with hb | hmv
          · left
            rw [hg u, if_neg hut]
            exact hb
          · exact Or.inr (hpers u hmv)
      have hce2 : CleanExceptS ctx dir ts2 (fun c => E c ∨ c = tile) := by
        intro c hc hnc b hb
        have hnc' : ¬ E c ∧ c ≠ tile := not_or.mp hnc
        have hcts : Moved ctx dir ts c := by
          unfold Moved at hc ⊢
          rw [hg c, if_neg hnc'.2] at hc
          exact hc
        exact clean_persist hpers (hce c hcts hnc'.1 b hb)
      have hstage0 : StageOK ctx.map tile tile terraform_tilepos :=
        Or.inl ⟨rfl, rfl⟩
      have hcov0 : ∀ b, orthAdjacent ctx.map tile b →
          b ∈ remPositions ctx.map tile terraform_tilepos ∨
            CleanPair ctx dir ts2 tile b := by
        intro b hb
        left
        rw [remPositions_top]
        rcases adj_mem_positions hm hb with h | h | h | h <;> simp [h]
      obtain ⟨hsk3, hms3, hp3, hce3, hcl3⟩ :=
        loop_aux ctx dir fuel ih hm hdir hinv E tile height htile hh
          terraform_tilepos tile ts2 ctx.price_terraform ts' cost
          hsk2 hms2 hce2 hmov2 hstage0 hcov0 hrun
      refine ⟨hsk3, hms3, persists_trans hpers hp3, hp3 tile hmov2, ?_, hcl3⟩
      intro c hc hnE b hb
      by_cases hct : c = tile
      · subst hct
        exact hcl3 b hb
      · exact hce3 c hc (fun h => h.elim hnE hct) b hb

/-- The aggregate invariant carried across the four corner calls. -/
def GoodState (ctx : TerraformCtx) (dir : Int) (ts : TerraformerState) : Prop :=
  SortedKeys ts.tile_to_new_height ∧ MovedState ctx dir ts ∧
    CleanExceptS ctx dir ts (fun _ => False)

theorem goodState_init {ctx : TerraformCtx} {dir : Int}
    (hdir : dir = 1 ∨ dir = -1) : GoodState ctx dir ⟨[], []⟩ := by
  refine ⟨List.Pairwise.nil, fun t => Or.inl rfl, ?_⟩
  intro c hc hnc b hb
  exfalso
  unfold Moved TerraformGetHeightOfTile mapFind at hc
  dsimp only at hc
  rcases hdir with h | h <;> omega

theorem orthAdjacent_symm {m : MapT} {a b : Nat} (h : orthAdjacent m a b) :
    orthAdjacent m b a := by
  obtain ⟨ha, hb, hsum⟩ := h
  refine ⟨hb, ha, ?_⟩
  unfold Delta at *
  split_ifs at * <;> omega

theorem cornerStep_good {ctx : TerraformCtx} {dir : Int} {fuel : Nat}
    {cond : Bool} {t : Nat} {st st2 : TerraformerState × Int}
    (hm : MapOK ctx.map) (hdir : dir = 1 ∨ dir = -1) (hinv : BaseInv ctx)
    (hcond : cond = true → t < MapSize ctx.map)
    (hgood : GoodState ctx dir st.1)
    (hrun : cornerStep ctx fuel dir cond t st = .ok st2) :
    GoodState ctx dir st2.1 := by
  unfold cornerStep at hrun
  split_ifs at hrun with hc
  · rcases hres : TerraformTileHeight ctx fuel st.1 t (ctx.heightOf t + dir)
        with e | ⟨ts2, c2⟩
    · rw [hres] at hrun
      simp at hrun
    · rw [hres] at hrun
      simp only [Except.ok.injEq] at hrun
      obtain ⟨s1, s2, -, -, s5, -⟩ :=
        tth_stmt_holds ctx dir hm hdir hinv fuel (fun _ => False) st.1 t _ ts2 c2
          hgood.1 hgood.2.1 hgood.2.2 (hcond hc) rfl hres
      rw [← hrun]
      exact ⟨s1, s2, s5⟩
  · simp only [Except.ok.injEq] at hrun
    rw [← hrun]
    exact hgood

theorem cornerCalls_good {ctx : TerraformCtx} {fuel tile p1 p2 : Nat}
    {ts : TerraformerState} {cost : Int}
    (hm : MapOK ctx.map) (hinv : BaseInv ctx) (htile : tile < MapSize ctx.map)
    (hrun : terraformCornerCalls ctx fuel tile p1 p2 = .ok (ts, cost)) :
    GoodState ctx (if p2 ≠ 0 then 1 else -1) ts := by
  have hdir : (if p2 ≠ 0 then (1 : Int) else -1) = 1 ∨
      (if p2 ≠ 0 then (1 : Int) else -1) = -1 := by
    split_ifs <;> simp
  set dir : Int := if p2 ≠ 0 then 1 else -1 with hdirdef
  unfold terraformCornerCalls at hrun
  dsimp only at hrun
  rcases h1 : cornerStep ctx fuel dir
      (decide (p1 &&& SLOPE_W ≠ 0) &&
        decide (wrap32 ((tile : Int) + TileDiffXY ctx.map 1 0) < MapSize ctx.map))
      (wrap32 ((tile : Int) + TileDiffXY ctx.map 1 0)) (⟨[], []⟩, 0)
      with e | st1
  · rw [h1] at hrun
    simp [Bind.bind, Except.bind] at hrun
  rw [h1] at hrun
  simp only [Bind.bind, Except.bind] at hrun
  have hg1 : GoodState ctx dir st1.1 :=
    cornerStep_good hm hdir hinv
      (fun h => by simp at h; exact h.2)
      (goodState_init hdir) h1
  rcases h2 : cornerStep ctx fuel dir
      (decide (p1 &&& SLOPE_S ≠ 0) &&
        decide (wrap32 ((tile : Int) + TileDiffXY ctx.map 1 1) < MapSize ctx.map))
      (wrap32 ((tile : Int) + TileDiffXY ctx.map 1 1)) st1
      with e | st2
  · rw [h2] at hrun
    simp at hrun
  rw [h2] at hrun
  dsimp only at hrun
  have hg2 : GoodState ctx dir st2.1 :=
    cornerStep_good hm hdir hinv
      (fun h => by simp at h; exact h.2) hg1 h2
  rcases h3 : cornerStep ctx fuel dir
      (decide (p1 &&& SLOPE_E ≠ 0) &&
        decide (wrap32 ((tile : Int) + TileDiffXY ctx.map 0 1) < MapSize ctx.map))
      (wrap32 ((tile : Int) + TileDiffXY ctx.map 0 1)) st2
      with e | st3
  · rw [h3] at hrun
    simp at hrun
  rw [h3] at hrun
  dsimp only at hrun
  have hg3 : GoodState ctx dir st3.1 :=
    cornerStep_good hm hdir hinv
      (fun h => by simp at h; exact h.2) hg2 h3
  have hg4 : GoodState ctx dir ts := by
    have := cornerStep_good hm hdir hinv (fun _ => htile) hg3 hrun
    exact this
  exact hg4

theorem goodState_final {ctx : TerraformCtx} {dir : Int} {ts : TerraformerState}
    (hdir : dir = 1 ∨ dir = -1) (hinv : BaseInv ctx)
    (hgood : GoodState ctx dir ts) {a b : Nat}
    (hadj : orthAdjacent ctx.map a b) :
    (TerraformGetHeightOfTile ctx ts a - TerraformGetHeightOfTile ctx ts b).natAbs
      ≤ 1 := by
  obtain ⟨-, hms, hce⟩ := hgood
  have hia := hadj.1
  have hib := hadj.2.1
  have hbase := hinv a hia b hib hadj
  rcases hms a with ha | ha <;> rcases hms b with hb | hb
  · rw [ha, hb]
    exact hbase
  · rcases hce b hb not_false a (orthAdjacent_symm hadj) with hmv | hsmall
    · unfold Moved at hmv
      rw [hmv] at ha
      rcases hdir with h | h <;> omega
    · unfold Moved at hb
      rw [ha, hb]
      omega
  · rcases hce a ha not_false b hadj with hmv | hsmall
    · unfold Moved at hmv
      rw [hmv] at hb
      rcases hdir with h | h <;> omega
    · unfold Moved at ha
      rw [ha, hb]
      omega
  · unfold Moved at ha hb
    rw [ha, hb]
    have : ctx.heightOf a + dir - (ctx.heightOf b + dir) =
        ctx.heightOf a - ctx.heightOf b := by ring
    rw [this]
    exact hbase

theorem commit_eq_getH (ctx : TerraformCtx) (ts : TerraformerState)
    (hsk : SortedKeys ts.tile_to_new_height) (u : Nat) :
    commitHeights ts.tile_to_new_height ctx.heightOf u =
      TerraformGetHeightOfTile ctx ts u := by
  rw [commitHeights_eq _ _ _ (hsk.imp (fun h => Nat.ne_of_lt h))]
  rfl

/-- C1 amended: if the stored heights satisfy the orthogonal-adjacency
invariant (adjacent corner heights differ by at most 1), then after any
successful `CmdTerraformLand` the returned heights — committed under
`DC_EXEC`, unchanged otherwise — still satisfy it, so every orthogonally
adjacent pair inside the affected set differs by at most 1 (diagonally
adjacent corners may differ by 2: a steep slope); and the recursion of
`TerraformTileHeight` retargets a neighbouring corner differing by more
than 1 to `height -+ 1` towards it, strictly shrinking the height gap by
exactly one per recursive call (the unbounded recursion itself is modelled
by fuel). -/
theorem terraform_propagation_invariant (ctx : TerraformCtx)
    (hooks : TerraformHooks) (company : Option Nat)
    (fuel tile flags p1 p2 : Nat) (cost : Int)
    (hm : MapOK ctx.map) (htile : tile < MapSize ctx.map) (hinv : BaseInv ctx)
    (hok : (CmdTerraformLand ctx hooks company fuel tile flags p1 p2).1 =
      .ok cost) :
    (∀ a b, orthAdjacent ctx.map a b →
      ((CmdTerraformLand ctx hooks company fuel tile flags p1 p2).2.1 a -
        (CmdTerraformLand ctx hooks company fuel tile flags p1 p2).2.1 b).natAbs
          ≤ 1) ∧
    (∀ r height : Int, 1 < (height - r).natAbs →
      (0 < height - r → retargetHeight r height = height - 1) ∧
      (height - r < 0 → retargetHeight r height = height + 1) ∧
      (retargetHeight r height - r).natAbs + 1 = (height - r).natAbs) := by
  constructor
  · intro a b hadj
    have hdir : (if p2 ≠ 0 then (1 : Int) else -1) = 1 ∨
        (if p2 ≠ 0 then (1 : Int) else -1) = -1 := by
      split_ifs <;> simp
    have hbase := hinv a hadj.1 b hadj.2.1 hadj
    unfold CmdTerraformLand
    rcases hcc : terraformCornerCalls ctx fuel tile p1 p2 with e | ⟨ts, cost0⟩
    · dsimp only
      exact hbase
    · have hgood := cornerCalls_good hm hinv htile hcc
      have hbound := goodState_final hdir hinv hgood hadj
      have hcommit : ∀ u, commitHeights ts.tile_to_new_height ctx.heightOf u =
          TerraformGetHeightOfTile ctx ts u :=
        commit_eq_getH ctx ts hgood.1
      dsimp only
      rcases terraformPassLoop ctx hooks ts flags
          (if p2 ≠ 0 then 1 else -1) 0 ts.dirty_tiles with e | c1
      · dsimp only
        exact hbase
      dsimp only
      rcases terraformPassLoop ctx hooks ts flags
          (if p2 ≠ 0 then 1 else -1) 1 ts.dirty_tiles with e | c2
      · dsimp only
        exact hbase
      dsimp only
      rcases company with - | l
      · dsimp only
        split_ifs
        · dsimp only
          rw [hcommit a, hcommit b]
          exact hbound
        · exact hbase
      · dsimp only
        split_ifs
        · exact hbase
        · dsimp only
          rw [hcommit a, hcommit b]
          exact hbound
        · exact hbase
  · intro r height h1
    unfold retargetHeight
    split_ifs with hlt
    · refine ⟨fun h => by omega, fun h => by omega, by omega⟩
    · refine ⟨fun h => by omega, fun h => by omega, by omega⟩

/-- Counterexample to C1 as stated: raising the north corner of tile (2, 2)
of a 4x4 map whose corner (2, 2) already sits one level up produces a steep
tile: the command succeeds, corners (2, 2) and (3, 3) both belong to the
affected set (the first is changed, the second is an orthogonal neighbour of
the changed corner (3, 2)), they are diagonally adjacent, yet their final
heights differ by 2 — the recursion only bounds the four orthogonally
adjacent corner differences, even though the initial heights satisfied the
full orthogonal-and-diagonal invariant. -/
theorem terraform_diagonal_cex :
    (∀ a, a < MapSize (⟨4, 4⟩ : MapT) → ∀ b, b < MapSize (⟨4, 4⟩ : MapT) →
      cornerAdjacent ⟨4, 4⟩ a b →
        ((if a = 10 then (1 : Int) else 0) - (if b = 10 then (1 : Int) else 0)).natAbs
          ≤ 1) ∧
    (CmdTerraformLand ⟨⟨4, 4⟩, fun t => if t = 10 then (1 : Int) else 0, 15, true, 10⟩
        ⟨fun _ => false, fun _ => false, fun _ => 0, 12, fun _ _ => false,
          fun _ => false, fun _ _ => .ok 0, fun _ _ _ _ => .ok 3⟩
        none 10 10 DC_EXEC SLOPE_N 1).1 = .ok 86 ∧
    cornerAdjacent ⟨4, 4⟩ 10 15 ∧ cornerAdjacent ⟨4, 4⟩ 11 15 ∧
    (CmdTerraformLand ⟨⟨4, 4⟩, fun t => if t = 10 then (1 : Int) else 0, 15, true, 10⟩
        ⟨fun _ => false, fun _ => false, fun _ => 0, 12, fun _ _ => false,
          fun _ => false, fun _ _ => .ok 0, fun _ _ _ _ => .ok 3⟩
        none 10 10 DC_EXEC SLOPE_N 1).2.1 10 = 2 ∧
    (CmdTerraformLand ⟨⟨4, 4⟩, fun t => if t = 10 then (1 : Int) else 0, 15, true, 10⟩
        ⟨fun _ => false, fun _ => false, fun _ => 0, 12, fun _ _ => false,
          fun _ => false, fun _ _ => .ok 0, fun _ _ _ _ => .ok 3⟩
        none 10 10 DC_EXEC SLOPE_N 1).2.1 11 = 1 ∧
    (CmdTerraformLand ⟨⟨4, 4⟩, fun t => if t = 10 then (1 : Int) else 0, 15, true, 10⟩
        ⟨fun _ => false, fun _ => false, fun _ => 0, 12, fun _ _ => false,
          fun _ => false, fun _ _ => .ok 0, fun _ _ _ _ => .ok 3⟩
        none 10 10 DC_EXEC SLOPE_N 1).2.1 15 = 0 ∧
    1 < ((2 : Int) - 0).natAbs := by
  have i1 : TerraformTileHeight
      ⟨⟨4, 4⟩, fun t => if t = 10 then (1 : Int) else 0, 15, true, 10⟩ 9
      ⟨[5, 6, 9, 10], [(10, 2)]⟩ 11 1 =
      .ok (⟨[5, 6, 7, 9, 10, 11], [(10, 2), (11, 1)]⟩, 10) := by
    unfold TerraformTileHeight
    norm_num [TerraformGetHeightOfTile, mapFind, TerraformAddDirtyTileAround,
      TerraformAddDirtyTile, TerraformSetHeightOfTile, setInsert, mapInsert,
      TileX, TileY, TileDiffXY, wrap32, U32, MapSize, Delta, terraform_tilepos,
      retargetHeight, TerraformTileHeightLoop]
    rfl
  have i2 : TerraformTileHeight
      ⟨⟨4, 4⟩, fun t => if t = 10 then (1 : Int) else 0, 15, true, 10⟩ 9
      ⟨[5, 6, 7, 9, 10, 11], [(10, 2), (11, 1)]⟩ 9 1 =
      .ok (⟨[4, 5, 6, 7, 8, 9, 10, 11], [(9, 1), (10, 2), (11, 1)]⟩, 10) := by
    unfold TerraformTileHeight
    norm_num [TerraformGetHeightOfTile, mapFind, TerraformAddDirtyTileAround,
      TerraformAddDirtyTile, TerraformSetHeightOfTile, setInsert, mapInsert,
      TileX, TileY, TileDiffXY, wrap32, U32, MapSize, Delta, terraform_tilepos,
      retargetHeight, TerraformTileHeightLoop]
    rfl
  have i3 : TerraformTileHeight
      ⟨⟨4, 4⟩, fun t => if t = 10 then (1 : Int) else 0, 15, true, 10⟩ 9
      ⟨[4, 5, 6, 7, 8, 9, 10, 11], [(9, 1), (10, 2), (11, 1)]⟩ 14 1 =
      .ok (⟨[4, 5, 6, 7, 8, 9, 10, 11, 13, 14],
        [(9, 1), (10, 2), (11, 1), (14, 1)]⟩, 10) := by
    unfold TerraformTileHeight
    norm_num [TerraformGetHeightOfTile, mapFind, TerraformAddDirtyTileAround,
      TerraformAddDirtyTile, TerraformSetHeightOfTile, setInsert, mapInsert,
      TileX, TileY, TileDiffXY, wrap32, U32, MapSize, Delta, terraform_tilepos,
      retargetHeight, TerraformTileHeightLoop]
    rfl
  have i4 : TerraformTileHeight
      ⟨⟨4, 4⟩, fun t => if t = 10 then (1 : Int) else 0, 15, true, 10⟩ 9
      ⟨[4, 5, 6, 7, 8, 9, 10, 11, 13, 14], [(9, 1), (10, 2), (11, 1), (14, 1)]⟩ 6 1 =
      .ok (⟨[1, 2, 4, 5, 6, 7, 8, 9, 10, 11, 13, 14],
        [(6, 1), (9, 1), (10, 2), (11, 1), (14, 1)]⟩, 10) := by
    unfold TerraformTileHeight
    norm_num [TerraformGetHeightOfTile, mapFind, TerraformAddDirtyTileAround,
      TerraformAddDirtyTile, TerraformSetHeightOfTile, setInsert, mapInsert,
      TileX, TileY, TileDiffXY, wrap32, U32, MapSize, Delta, terraform_tilepos,
      retargetHeight, TerraformTileHeightLoop]
    rfl
  have e0 : TerraformTileHeight
      ⟨⟨4, 4⟩, fun t => if t = 10 then (1 : Int) else 0, 15, true, 10⟩ 10
      ⟨[], []⟩ 10 2 =
      TerraformTileHeightLoop
        ⟨⟨4, 4⟩, fun t => if t = 10 then (1 : Int) else 0, 15, true, 10⟩ 9
        ⟨[5, 6, 9, 10], [(10, 2)]⟩ 10 2 10 terraform_tilepos 10 := by
    unfold TerraformTileHeight
    rfl
  have e1 : TerraformTileHeightLoop
      ⟨⟨4, 4⟩, fun t => if t = 10 then (1 : Int) else 0, 15, true, 10⟩ 9
      ⟨[5, 6, 9, 10], [(10, 2)]⟩ 10 2 10 terraform_tilepos 10 =
      (match TerraformTileHeight
          ⟨⟨4, 4⟩, fun t => if t = 10 then (1 : Int) else 0, 15, true, 10⟩ 9
          ⟨[5, 6, 9, 10], [(10, 2)]⟩ 11 1 with
        | .error e => .error e
        | .ok (p, c) => TerraformTileHeightLoop
            ⟨⟨4, 4⟩, fun t => if t = 10 then (1 : Int) else 0, 15, true, 10⟩ 9
            p 10 2 11 [(-2, 0), (1, 1), (0, -2)] (10 + c)) := by
    conv_lhs => unfold TerraformTileHeightLoop
    norm_num +decide [TerraformGetHeightOfTile, mapFind, TileX, TileY, TileDiffXY,
      wrap32, U32, MapSize, Delta, terraform_tilepos, retargetHeight]
    rw [show Int.toNat 11 = 11 from rfl]
  have e2 : TerraformTileHeightLoop
      ⟨⟨4, 4⟩, fun t => if t = 10 then (1 : Int) else 0, 15, true, 10⟩ 9
      ⟨[5, 6, 7, 9, 10, 11], [(10, 2), (11, 1)]⟩ 10 2 11 [(-2, 0), (1, 1), (0, -2)]
      20 =
      (match TerraformTileHeight
          ⟨⟨4, 4⟩, fun t => if t = 10 then (1 : Int) else 0, 15, true, 10⟩ 9
          ⟨[5, 6, 7, 9, 10, 11], [(10, 2), (11, 1)]⟩ 9 1 with
        | .error e => .error e
        | .ok (p, c) => TerraformTileHeightLoop
            ⟨⟨4, 4⟩, fun t => if t = 10 then (1 : Int) else 0, 15, true, 10⟩ 9
            p 10 2 9 [(1, 1), (0, -2)] (20 + c)) := by
    conv_lhs => unfold TerraformTileHeightLoop
    norm_num +decide [TerraformGetHeightOfTile, mapFind, TileX, TileY, TileDiffXY,
      wrap32, U32, MapSize, Delta, terraform_tilepos, retargetHeight]
    rw [show Int.toNat 9 = 9 from rfl]
  have e3 : TerraformTileHeightLoop
      ⟨⟨4, 4⟩, fun t => if t = 10 then (1 : Int) else 0, 15, true, 10⟩ 9
      ⟨[4, 5, 6, 7, 8, 9, 10, 11], [(9, 1), (10, 2), (11, 1)]⟩ 10 2 9
      [(1, 1), (0, -2)] 30 =
      (match TerraformTileHeight
          ⟨⟨4, 4⟩, fun t => if t = 10 then (1 : Int) else 0, 15, true, 10⟩ 9
          ⟨[4, 5, 6, 7, 8, 9, 10, 11], [(9, 1), (10, 2), (11, 1)]⟩ 14 1 with
        | .error e => .error e
        | .ok (p, c) => TerraformTileHeightLoop
            ⟨⟨4, 4⟩, fun t => if t = 10 then (1 : Int) else 0, 15, true, 10⟩ 9
            p 10 2 14 [(0, -2)] (30 + c)) := by
    conv_lhs => unfold TerraformTileHeightLoop
    norm_num +decide [TerraformGetHeightOfTile, mapFind, TileX, TileY, TileDiffXY,
      wrap32, U32, MapSize, Delta, terraform_tilepos, retargetHeight]
    rw [show Int.toNat 14 = 14 from rfl]
  have e4 : TerraformTileHeightLoop
      ⟨⟨4, 4⟩, fun t => if t = 10 then (1 : Int) else 0, 15, true, 10⟩ 9
      ⟨[4, 5, 6, 7, 8, 9, 10, 11, 13, 14], [(9, 1), (10, 2), (11, 1), (14, 1)]⟩
      10 2 14 [(0, -2)] 40 =
      (match TerraformTileHeight
          ⟨⟨4, 4⟩, fun t => if t = 10 then (1 : Int) else 0, 15, true, 10⟩ 9
          ⟨[4, 5, 6, 7, 8, 9, 10, 11, 13, 14], [(9, 1), (10, 2), (11, 1), (14, 1)]⟩
          6 1 with
        | .error e => .error e
        | .ok (p, c) => TerraformTileHeightLoop
            ⟨⟨4, 4⟩, fun t => if t = 10 then (1 : Int) else 0, 15, true, 10⟩ 9
            p 10 2 6 [] (40 + c)) := by
    conv_lhs => unfold TerraformTileHeightLoop
    norm_num +decide [TerraformGetHeightOfTile, mapFind, TileX, TileY, TileDiffXY,
      wrap32, U32, MapSize, Delta, terraform_tilepos, retargetHeight]
    rw [show Int.toNat 6 = 6 from rfl]
  have e5 : TerraformTileHeightLoop
      ⟨⟨4, 4⟩, fun t => if t = 10 then (1 : Int) else 0, 15, true, 10⟩ 9
      ⟨[1, 2, 4, 5, 6, 7, 8, 9, 10, 11, 13, 14],
        [(6, 1), (9, 1), (10, 2), (11, 1), (14, 1)]⟩ 10 2 6 [] 50 =
      .ok (⟨[1, 2, 4, 5, 6, 7, 8, 9, 10, 11, 13, 14],
        [(6, 1), (9, 1), (10, 2), (11, 1), (14, 1)]⟩, 50) := by
    unfold TerraformTileHeightLoop
    rfl
  have hT2 : TerraformTileHeight
      ⟨⟨4, 4⟩, fun t => if t = 10 then (1 : Int) else 0, 15, true, 10⟩ 10
      ⟨[], []⟩ 10 2 =
      .ok (⟨[1, 2, 4, 5, 6, 7, 8, 9, 10, 11, 13, 14],
        [(6, 1), (9, 1), (10, 2), (11, 1), (14, 1)]⟩, 50) := by
    rw [e0, e1, i1]
    show TerraformTileHeightLoop
      ⟨⟨4, 4⟩, fun t => if t = 10 then (1 : Int) else 0, 15, true, 10⟩ 9
      ⟨[5, 6, 7, 9, 10, 11], [(10, 2), (11, 1)]⟩ 10 2 11
      [(-2, 0), (1, 1), (0, -2)] 20 = _
    rw [e2, i2]
    show TerraformTileHeightLoop
      ⟨⟨4, 4⟩, fun t => if t = 10 then (1 : Int) else 0, 15, true, 10⟩ 9
      ⟨[4, 5, 6, 7, 8, 9, 10, 11], [(9, 1), (10, 2), (11, 1)]⟩ 10 2 9
      [(1, 1), (0, -2)] 30 = _
    rw [e3, i3]
    show TerraformTileHeightLoop
      ⟨⟨4, 4⟩, fun t => if t = 10 then (1 : Int) else 0, 15, true, 10⟩ 9
      ⟨[4, 5, 6, 7, 8, 9, 10, 11, 13, 14], [(9, 1), (10, 2), (11, 1), (14, 1)]⟩
      10 2 14 [(0, -2)] 40 = _
    rw [e4, i4]
    show TerraformTileHeightLoop
      ⟨⟨4, 4⟩, fun t => if t = 10 then (1 : Int) else 0, 15, true, 10⟩ 9
      ⟨[1, 2, 4, 5, 6, 7, 8, 9, 10, 11, 13, 14],
        [(6, 1), (9, 1), (10, 2), (11, 1), (14, 1)]⟩ 10 2 6 [] 50 = _
    rw [e5]
  have h2 : terraformCornerCalls
      ⟨⟨4, 4⟩, fun t => if t = 10 then (1 : Int) else 0, 15, true, 10⟩ 10 10
      SLOPE_N 1 =
      (match TerraformTileHeight
          ⟨⟨4, 4⟩, fun t => if t = 10 then (1 : Int) else 0, 15, true, 10⟩ 10
          ⟨[], []⟩ 10 2 with
        | .error e => .error e
        | .ok (ts2, cost) => .ok (ts2, (0 : Int) + cost)) := rfl
  have hcc : terraformCornerCalls
      ⟨⟨4, 4⟩, fun t => if t = 10 then (1 : Int) else 0, 15, true, 10⟩ 10 10
      SLOPE_N 1 =
      .ok (⟨[1, 2, 4, 5, 6, 7, 8, 9, 10, 11, 13, 14],
        [(6, 1), (9, 1), (10, 2), (11, 1), (14, 1)]⟩, 50) := by
    rw [h2, hT2]
    rfl
  have hfull : CmdTerraformLand
      ⟨⟨4, 4⟩, fun t => if t = 10 then (1 : Int) else 0, 15, true, 10⟩
      ⟨fun _ => false, fun _ => false, fun _ => 0, 12, fun _ _ => false,
        fun _ => false, fun _ _ => .ok 0, fun _ _ _ _ => .ok 3⟩
      none 10 10 DC_EXEC SLOPE_N 1 =
      (.ok 86, commitHeights
        [(6, 1), (9, 1), (10, 2), (11, 1), (14, 1)]
        (fun t => if t = 10 then (1 : Int) else 0), none) := by
    unfold CmdTerraformLand
    rw [hcc]
    rfl
  refine ⟨by decide, ?_, by decide, by decide, ?_, ?_, ?_, by decide⟩
  · rw [hfull]
  · rw [hfull]
    rfl
  · rw [hfull]
    rfl
  · rw [hfull]
    rfl

/-- Witness for the amended C1: raising the north corner of tile (1, 1) of a
flat 4x4 map succeeds and every orthogonally adjacent corner pair of the
returned heights still differs by at most 1. -/
theorem terraform_propagation_invariant_witness :
    MapOK (⟨4, 4⟩ : MapT) ∧ 5 < MapSize (⟨4, 4⟩ : MapT) ∧
      BaseInv ⟨⟨4, 4⟩, fun _ => 0, 15, true, 10⟩ ∧
      (CmdTerraformLand ⟨⟨4, 4⟩, fun _ => 0, 15, true, 10⟩
        ⟨fun _ => false, fun _ => false, fun _ => 0, 12, fun _ _ => false,
          fun _ => false, fun _ _ => .ok 0, fun _ _ _ _ => .ok 3⟩
        none 10 5 DC_EXEC SLOPE_N 1).1 = .ok 22 ∧
      ((∀ a b, orthAdjacent (⟨⟨4, 4⟩, fun _ => 0, 15, true, 10⟩ : TerraformCtx).map a b →
        ((CmdTerraformLand ⟨⟨4, 4⟩, fun _ => 0, 15, true, 10⟩
            ⟨fun _ => false, fun _ => false, fun _ => 0, 12, fun _ _ => false,
              fun _ => false, fun _ _ => .ok 0, fun _ _ _ _ => .ok 3⟩
            none 10 5 DC_EXEC SLOPE_N 1).2.1 a -
          (CmdTerraformLand ⟨⟨4, 4⟩, fun _ => 0, 15, true, 10⟩
            ⟨fun _ => false, fun _ => false, fun _ => 0, 12, fun _ _ => false,
              fun _ => false, fun _ _ => .ok 0, fun _ _ _ _ => .ok 3⟩
            none 10 5 DC_EXEC SLOPE_N 1).2.1 b).natAbs ≤ 1) ∧
      (∀ r height : Int, 1 < (height - r).natAbs →
        (0 < height - r → retargetHeight r height = height - 1) ∧
        (height - r < 0 → retargetHeight r height = height + 1) ∧
        (retargetHeight r height - r).natAbs + 1 = (height - r).natAbs)) := by
  have hT : TerraformTileHeight ⟨⟨4, 4⟩, fun _ => 0, 15, true, 10⟩ 10 ⟨[], []⟩ 5 1 =
      .ok (⟨[0, 1, 4, 5], [(5, 1)]⟩, 10) := by
    unfold TerraformTileHeight
    norm_num [TerraformGetHeightOfTile, mapFind, TerraformAddDirtyTileAround,
      TerraformAddDirtyTile, TerraformSetHeightOfTile, setInsert, mapInsert,
      TileX, TileY, TileDiffXY, wrap32, U32, MapSize, Delta, terraform_tilepos,
      TerraformTileHeightLoop]
    rfl
  have h2 : terraformCornerCalls ⟨⟨4, 4⟩, fun _ => 0, 15, true, 10⟩ 10 5 SLOPE_N 1 =
      (match TerraformTileHeight ⟨⟨4, 4⟩, fun _ => 0, 15, true, 10⟩ 10 ⟨[], []⟩ 5 1 with
        | .error e => .error e
        | .ok (ts2, cost) => .ok (ts2, (0 : Int) + cost)) := rfl
  have hcc : terraformCornerCalls ⟨⟨4, 4⟩, fun _ => 0, 15, true, 10⟩ 10 5 SLOPE_N 1 =
      .ok (⟨[0, 1, 4, 5], [(5, 1)]⟩, 10) := by
    rw [h2, hT]
    rfl
  have hok : (CmdTerraformLand ⟨⟨4, 4⟩, fun _ => 0, 15, true, 10⟩
      ⟨fun _ => false, fun _ => false, fun _ => 0, 12, fun _ _ => false,
        fun _ => false, fun _ _ => .ok 0, fun _ _ _ _ => .ok 3⟩
      none 10 5 DC_EXEC SLOPE_N 1).1 = .ok 22 := by
    unfold CmdTerraformLand
    rw [hcc]
    rfl
  refine ⟨by decide, by decide, by decide, hok, ?_⟩
  exact terraform_propagation_invariant ⟨⟨4, 4⟩, fun _ => 0, 15, true, 10⟩
    ⟨fun _ => false, fun _ => false, fun _ => 0, 12, fun _ _ => false,
      fun _ => false, fun _ _ => .ok 0, fun _ _ _ _ => .ok 3⟩
    none 10 5 DC_EXEC SLOPE_N 1 22 (by decide) (by decide) (by decide) hok
